import Mathlib

/-!
# Verification of the `pg_diesel` database-graph builder

A shallow embedding of the core of the `pg_diesel` crate: the
`PgDieselDatabaseBuilder` configuration methods, the catalog-row models, the
per-query filters, and the `TryFrom<PgDieselDatabaseBuilder>` build pipeline
(function loading, role loading, table loading, per-table sub-entity
processing, and two-pass role-membership finalization).

Rust strings are modelled by Lean `String`; byte-level ASCII operations are
carried out on the code-point list (`String.data.map Char.toNat`), which for
valid UTF-8 agrees with Rust's byte-level ASCII folding.  Machine integers
(`u32`, `i16`, ...) carry no arithmetic in the modelled code and are modelled
by `Nat`/`Int`.  Fallible database queries are modelled by `Except`-valued
oracles bundled in a `Conn` structure; a Rust `panic!`/`unreachable!` is
modelled by `Option.none` at the outermost layer.
-/

namespace PgDiesel

/-- ASCII-lowercase a single byte/code point, as Rust's
`u8::to_ascii_lowercase` does: `A`..`Z` (65..90) is shifted by 32, everything
else is unchanged. -/
def asciiLowerNat (n : Nat) : Nat :=
  if 65 ≤ n ∧ n ≤ 90 then n + 32 else n

/-- ASCII-uppercase a single byte/code point, as Rust's
`u8::to_ascii_uppercase` does: `a`..`z` (97..122) is shifted down by 32,
everything else is unchanged. -/
def asciiUpperNat (n : Nat) : Nat :=
  if 97 ≤ n ∧ n ≤ 122 then n - 32 else n

/-- The code points of a string, the level at which the byte-oriented Rust
string primitives are modelled. -/
def strBytes (s : String) : List Nat :=
  s.data.map Char.toNat

/-- Rust `str::eq_ignore_ascii_case`: equal length and pairwise equality
after ASCII case folding. -/
def eqIgnoreAsciiCase (a b : String) : Bool :=
  (strBytes a).map asciiLowerNat == (strBytes b).map asciiLowerNat

/-- The code points of Rust `str::to_uppercase` of `s`, for strings whose
uppercasing is ASCII (the only case exercised by the modelled code). -/
def upperBytes (s : String) : List Nat :=
  (strBytes s).map asciiUpperNat

/-- `sqlparser::ast::ConstraintReferenceMatchKind` (external crate), the
three-valued result of `ReferentialConstraint::match_kind`. -/
inductive ConstraintReferenceMatchKind where
  | Full : ConstraintReferenceMatchKind
  | Partial : ConstraintReferenceMatchKind
  | Simple : ConstraintReferenceMatchKind
deriving DecidableEq

/-- `ReferentialConstraint` (src/models/information_schema/referential_constraint.rs),
a row of `information_schema.referential_constraints`. -/
structure ReferentialConstraint where
  constraint_catalog : String
  constraint_schema : String
  constraint_name : String
  unique_constraint_catalog : Option String
  unique_constraint_schema : Option String
  unique_constraint_name : Option String
  match_option : String
  update_rule : String
  delete_rule : String
deriving DecidableEq

/-- `ReferentialConstraint::on_delete_cascade`:
`self.delete_rule.eq_ignore_ascii_case("CASCADE")`. -/
def ReferentialConstraint.on_delete_cascade (rc : ReferentialConstraint) : Bool :=
  eqIgnoreAsciiCase rc.delete_rule "CASCADE"

/-- `ReferentialConstraint::match_kind`: match on
`self.match_option.to_uppercase().as_str()`; the `unreachable!` arm for any
other string (a fatal panic in the source) is modelled as `none`. -/
def ReferentialConstraint.match_kind (rc : ReferentialConstraint) :
    Option ConstraintReferenceMatchKind :=
  let u := upperBytes rc.match_option
  if u = strBytes "FULL" then some .Full
  else if u = strBytes "PARTIAL" then some .Partial
  else if u = strBytes "SIMPLE" then some .Simple
  else if u = strBytes "NONE" then some .Simple
  else none

theorem asciiLower_eq_iff_asciiUpper_eq (n m : Nat) (h1 : 97 ≤ m) (h2 : m ≤ 122) :
    asciiLowerNat n = m ↔ asciiUpperNat n = m - 32 := by
  unfold asciiLowerNat asciiUpperNat
  split <;> split <;> omega

theorem map_asciiLower_eq_iff_map_asciiUpper_eq (l ms : List Nat)
    (h : ∀ m ∈ ms, 97 ≤ m ∧ m ≤ 122) :
    l.map asciiLowerNat = ms ↔ l.map asciiUpperNat = ms.map (fun m => m - 32) := by
  induction l generalizing ms with
  | nil =>
    cases ms with
    | nil => simp
    | cons m ms => simp
  | cons a l ih =>
    cases ms with
    | nil => simp
    | cons m ms =>
      have hm := h m (by simp)
      have hrest : ∀ x ∈ ms, 97 ≤ x ∧ x ≤ 122 := fun x hx => h x (by simp [hx])
      simp only [List.map_cons, List.cons.injEq]
      constructor
      · rintro ⟨h1, h2⟩
        exact ⟨(asciiLower_eq_iff_asciiUpper_eq a m hm.1 hm.2).mp h1, (ih ms hrest).mp h2⟩
      · rintro ⟨h1, h2⟩
        exact ⟨(asciiLower_eq_iff_asciiUpper_eq a m hm.1 hm.2).mpr h1, (ih ms hrest).mpr h2⟩

theorem eqIgnoreAsciiCase_cascade (s : String) :
    eqIgnoreAsciiCase s "CASCADE" = true ↔ upperBytes s = strBytes "CASCADE" := by
  have hlow : (strBytes "CASCADE").map asciiLowerNat = strBytes "cascade" := by decide
  have hbounds : ∀ m ∈ strBytes "cascade", 97 ≤ m ∧ m ≤ 122 := by decide
  have hup : (strBytes "cascade").map (fun m => m - 32) = strBytes "CASCADE" := by decide
  unfold eqIgnoreAsciiCase upperBytes
  rw [hlow, beq_iff_eq]
  rw [map_asciiLower_eq_iff_map_asciiUpper_eq _ _ hbounds, hup]

theorem match_kind_cases (rc : ReferentialConstraint) :
    (rc.match_kind = some .Full ↔ upperBytes rc.match_option = strBytes "FULL")
    ∧ (rc.match_kind = some .Partial ↔ upperBytes rc.match_option = strBytes "PARTIAL")
    ∧ (rc.match_kind = some .Simple ↔
        (upperBytes rc.match_option = strBytes "SIMPLE"
          ∨ upperBytes rc.match_option = strBytes "NONE"))
    ∧ (rc.match_kind = none ↔
        (upperBytes rc.match_option ≠ strBytes "FULL"
          ∧ upperBytes rc.match_option ≠ strBytes "PARTIAL"
          ∧ upperBytes rc.match_option ≠ strBytes "SIMPLE"
          ∧ upperBytes rc.match_option ≠ strBytes "NONE")) := by
  unfold ReferentialConstraint.match_kind
  simp only []
  split_ifs with h1 h2 h3 h4 <;>
    refine ⟨?_, ?_, ?_, ?_⟩ <;> simp_all <;> decide

/-- `diesel::result::Error` (external crate), abstracted: the modelled code
only constructs `NotFound` and propagates values opaquely. -/
inductive DieselError where
  | NotFound : DieselError
  | DatabaseError (message : String) : DieselError
deriving DecidableEq

/-- `PgDatabaseBuildError` (src/database/builder.rs). -/
inductive PgDatabaseBuildError where
  | MissingAttribute (attr : String) : PgDatabaseBuildError
  | Diesel (e : DieselError) : PgDatabaseBuildError
  | DuplicateDenylistedType (ty : String) : PgDatabaseBuildError
deriving DecidableEq

/-- `PgRole` (src/models/pg_catalog/pg_role.rs), a row of the `pg_roles`
view.  `rolvaliduntil : Option SystemTime` is modelled as an opaque
timestamp. -/
structure PgRole where
  rolname : Option String
  rolsuper : Option Bool
  rolinherit : Option Bool
  rolcreaterole : Option Bool
  rolcreatedb : Option Bool
  rolcanlogin : Option Bool
  rolreplication : Option Bool
  rolconnlimit : Option Int
  rolpassword : Option String
  rolvaliduntil : Option Nat
  rolbypassrls : Option Bool
  rolconfig : Option (List String)
  oid : Option Nat
deriving DecidableEq

/-- `PgRole::name`: `self.rolname.as_deref().unwrap_or("<unknown>")`. -/
def PgRole.name (r : PgRole) : String :=
  r.rolname.getD "<unknown>"

/-- `PgProc` (src/models/pg_catalog/pg_proc.rs), a row of `pg_catalog.pg_proc`.
The `f32` fields `procost`/`prorows` are never computed with by the modelled
code and are represented by their raw bit patterns. -/
structure PgProc where
  oid : Nat
  proname : String
  pronamespace : Nat
  proowner : Nat
  prolang : Nat
  procost : Nat
  prorows : Nat
  provariadic : Nat
  prosupport : Nat
  prokind : String
  prosecdef : Bool
  proleakproof : Bool
  proisstrict : Bool
  proretset : Bool
  provolatile : String
  proparallel : String
  pronargs : Int
  pronargdefaults : Int
  prorettype : Nat
  proargtypes : List Nat
  proallargtypes : Option (List Nat)
  proargmodes : Option (List String)
  proargnames : Option (List String)
  proargdefaults : Option String
  protrftypes : Option (List Nat)
  prosrc : String
  probin : Option (List Nat)
  prosqlbody : Option String
  proconfig : Option (List String)
  proacl : Option (List String)
deriving DecidableEq

/-- Modelled from the spec: `FunctionLike::name` for `PgProc` — the file
src/impls/function_like.rs is declared (src/impls.rs) but absent; §4.3 of
the spec requires the check-constraint function link to be an exact match on
function names, so `name` is the catalog name `proname`. -/
def PgProc.name (p : PgProc) : String :=
  p.proname

/-- Modelled from the spec: `PgType` — the file defining the `pg_type` row
struct is absent from the sources; per §4.2 types are used only as
identifier-resolved values, so only the identifying fields are kept. -/
structure PgType where
  oid : Nat
  typname : String
deriving DecidableEq

/-- Modelled from the spec: `Table` (src/models/information_schema/table.rs
is absent; its columns are pinned by the filters of
src/models/information_schema/table/cached_queries.rs and by the `TableLike`
impl in src/impls/table_like.rs): a row of `information_schema.tables`
identified by (catalog, schema, name). -/
structure Table where
  table_catalog : String
  table_schema : String
  table_name : String
deriving DecidableEq

/-- `TableLike::table_schema` for `Table` (src/impls/table_like.rs):
`Some(&self.table_schema)`. -/
def Table.table_schemaOpt (t : Table) : Option String :=
  some t.table_schema

/-- Modelled from the spec: `Column` (the file defining the
`information_schema.columns` row struct is absent): identified by
(table id, ordinal position, name) per §3. -/
structure Column where
  table_catalog : String
  table_schema : String
  table_name : String
  column_name : String
  ordinal_position : Nat
deriving DecidableEq

/-- `CheckConstraint` (src/models/information_schema/check_constraint.rs). -/
structure CheckConstraint where
  constraint_catalog : String
  constraint_schema : String
  constraint_name : String
  check_clause : String
deriving DecidableEq

/-- Modelled from the spec: `KeyColumnUsage` (row struct absent from the
sources): the raw foreign-key row, identified by its constraint identity. -/
structure KeyColumnUsage where
  constraint_catalog : String
  constraint_schema : String
  constraint_name : String
deriving DecidableEq

/-- Modelled from the spec: `PgIndex` (row struct absent from the sources):
a `pg_catalog.pg_index` row as filtered by
src/models/information_schema/table/cached_queries.rs. -/
structure PgIndex where
  indexrelid : Nat
  indrelid : Nat
  indisunique : Bool
deriving DecidableEq

/-- Modelled from the spec: `Triggers` (information-schema trigger row struct
absent from the sources; fields pinned by
src/model_metadata/trigger_metadata.rs and the trigger join in
table/cached_queries.rs). -/
structure Triggers where
  trigger_name : Option String
  event_manipulation : Option String
  action_timing : Option String
  action_orientation : Option String
deriving DecidableEq

/-- Modelled from the spec: `PgPolicyTable` (row struct absent from the
sources; fields pinned by the builder's policy loop and the `roles` cached
query): a `pg_catalog.pg_policy` row with raw USING/CHECK clause text and a
role-OID array. -/
structure PgPolicyTable where
  polname : String
  polrelid : Nat
  polqual : Option String
  polwithcheck : Option String
  polroles : List Nat
deriving DecidableEq

/-- Modelled from the spec: `PgAuthid` (row struct absent from the sources):
an authorization-identifier row, looked up by OID for policy roles. -/
structure PgAuthid where
  oid : Nat
  rolname : String
deriving DecidableEq

/-- `sqlparser::ast::Expr` (external crate), treated as an opaque parsed
AST value. -/
structure Expr where
  raw : String
deriving DecidableEq

/-- `sqlparser::ast::Ident` (external crate); `Ident::new` sets the value. -/
structure Ident where
  value : String
deriving DecidableEq

/-- `sqlparser::ast::Owner` (external crate); only the `Ident` variant is
constructed by the modelled code. -/
inductive Owner where
  | Ident (i : Ident) : Owner
deriving DecidableEq

/-- `sqlparser::ast::TriggerEvent` (external crate). -/
inductive TriggerEvent where
  | Insert : TriggerEvent
  | Update (columns : List Ident) : TriggerEvent
  | Delete : TriggerEvent
  | Truncate : TriggerEvent
deriving DecidableEq

/-- `sqlparser::ast::TriggerPeriod` (external crate). -/
inductive TriggerPeriod where
  | Before : TriggerPeriod
  | After : TriggerPeriod
  | InsteadOf : TriggerPeriod
deriving DecidableEq

/-- `sqlparser::ast::TriggerObject` (external crate). -/
inductive TriggerObject where
  | Row : TriggerObject
  | Statement : TriggerObject
deriving DecidableEq

/-- `sqlparser::ast::TriggerObjectKind` (external crate); only the
`ForEach` variant is constructed by the modelled code. -/
inductive TriggerObjectKind where
  | ForEach (obj : TriggerObject) : TriggerObjectKind
deriving DecidableEq

/-- Modelled from the spec: `PgDescription` (row struct absent from the
sources): a `pg_catalog.pg_description` comment row. -/
structure PgDescription where
  description : String
deriving DecidableEq

/-- `PgProcMetadata` (src/database/pg_proc_metadata.rs): resolved argument
and return types of a function. -/
structure PgProcMetadata where
  argument_types : List PgType
  return_type : Option PgType
deriving DecidableEq

/-- `ColumnMetadata` (src/model_metadata/column_metadata.rs). -/
structure ColumnMetadata where
  table : Table
  description : Option PgDescription
  pg_type : PgType
deriving DecidableEq

/-- `sql_traits::structs::metadata::CheckMetadata` (external crate), as
constructed by `CheckConstraint::metadata`
(src/models/information_schema/check_constraint.rs):
`CheckMetadata::new(expression, table, columns, functions)`. -/
structure CheckMetadata where
  expression : Expr
  table : Table
  columns : List Column
  functions : List PgProc
deriving DecidableEq

/-- `KeyColumnUsageMetadata` (src/database/key_column_usage_metadata.rs). -/
structure KeyColumnUsageMetadata where
  referenced_table : Table
  referenced_columns : List Column
  host_table : Table
  host_columns : List Column
  referential_constraint : ReferentialConstraint
deriving DecidableEq

/-- Modelled from the spec: the metadata produced by `PgIndex::metadata`
(source absent): per §3 a unique index records its owning table and parsed
index expression. -/
structure UniqueIndexMetadata where
  table : Table
  expression : Expr
deriving DecidableEq

/-- `parse_events` (src/model_metadata/trigger_metadata.rs): unknown event
strings are dropped silently. -/
def parse_events (model : Triggers) : List TriggerEvent :=
  match model.event_manipulation with
  | none => []
  | some event =>
    if event = "INSERT" then [TriggerEvent.Insert]
    else if event = "UPDATE" then [TriggerEvent.Update []]
    else if event = "DELETE" then [TriggerEvent.Delete]
    else if event = "TRUNCATE" then [TriggerEvent.Truncate]
    else []

/-- `parse_timing` (src/model_metadata/trigger_metadata.rs). -/
def parse_timing (model : Triggers) : Option TriggerPeriod :=
  model.action_timing.bind fun t =>
    if t = "BEFORE" then some TriggerPeriod.Before
    else if t = "AFTER" then some TriggerPeriod.After
    else if t = "INSTEAD OF" then some TriggerPeriod.InsteadOf
    else none

/-- `parse_orientation` (src/model_metadata/trigger_metadata.rs). -/
def parse_orientation (model : Triggers) : Option TriggerObjectKind :=
  model.action_orientation.bind fun o =>
    if o = "ROW" then some (TriggerObjectKind.ForEach TriggerObject.Row)
    else if o = "STATEMENT" then some (TriggerObjectKind.ForEach TriggerObject.Statement)
    else none

/-- `TriggerMetadata` (src/model_metadata/trigger_metadata.rs). -/
structure TriggerMetadata where
  model : Triggers
  table : Table
  events : List TriggerEvent
  timing : Option TriggerPeriod
  orientation : Option TriggerObjectKind
  function_oid : Option Nat
deriving DecidableEq

/-- `TriggerMetadata::new` (src/model_metadata/trigger_metadata.rs). -/
def TriggerMetadata.new (model : Triggers) (table : Table)
    (function_oid : Option Nat) : TriggerMetadata :=
  { model := model
    table := table
    events := parse_events model
    timing := parse_timing model
    orientation := parse_orientation model
    function_oid := function_oid }

/-- `PolicyMetadata` (src/model_metadata/policy_metadata.rs). -/
structure PolicyMetadata where
  table : Table
  using_functions : List PgProc
  check_functions : List PgProc
  using_expression : Option Expr
  check_expression : Option Expr
  roles : List Owner
deriving DecidableEq

/-- `PolicyMetadata::new` (src/model_metadata/policy_metadata.rs). -/
def PolicyMetadata.new (table : Table) (using_functions check_functions : List PgProc)
    (using_expression check_expression : Option Expr) (roles : List Owner) :
    PolicyMetadata :=
  { table := table
    using_functions := using_functions
    check_functions := check_functions
    using_expression := using_expression
    check_expression := check_expression
    roles := roles }

/-- `RoleMetadata` (src/model_metadata/role_metadata.rs). -/
structure RoleMetadata where
  member_of : List PgRole
  policies : List PgPolicyTable
deriving DecidableEq

/-- `RoleMetadata::new` (src/model_metadata/role_metadata.rs). -/
def RoleMetadata.new (member_of : List PgRole) (policies : List PgPolicyTable) :
    RoleMetadata :=
  { member_of := member_of, policies := policies }

/-- Modelled from the spec: `TableMetadata`
(src/model_metadata/table_metadata.rs is declared in
src/model_metadata.rs but absent): per §4.1 step 4 it bundles the per-table
sub-entities — columns, check constraints, foreign keys, unique indexes,
triggers joined with their recovered function OID, and policies — that the
build loop iterates. -/
structure TableMetadata where
  columns : List Column
  check_constraints : List CheckConstraint
  foreign_keys : List KeyColumnUsage
  unique_indexes : List PgIndex
  triggers : List (Triggers × Option Nat)
  policies : List PgPolicyTable
deriving DecidableEq

/-- The borrowed `PgConnection` together with the reachable database state:
the row tables consulted by the queries whose filters are modelled
explicitly, a failure switch for each such query, and `Except`-valued
oracles for the remaining catalog queries and for the external
`sqlparser`/`sql_traits` helpers. -/
structure Conn where
  /-- Rows of `pg_catalog.pg_proc` (for `PgProc::load_all`). -/
  pg_proc_rows : List PgProc
  /-- Failure injection for the `pg_proc` query. -/
  pg_proc_load_err : Option DieselError
  /-- `PgProcMetadata::new(function, conn)` (type-resolution queries). -/
  pg_proc_metadata : PgProc → Except DieselError PgProcMetadata
  /-- Rows of the `pg_roles` view (for `PgRole::load_all`). -/
  pg_roles_rows : List PgRole
  /-- Failure injection for the `pg_roles` query. -/
  pg_roles_load_err : Option DieselError
  /-- Rows of `information_schema.tables` (for `load_all_tables`). -/
  tables_rows : List Table
  /-- Failure injection for the tables query. -/
  tables_load_err : Option DieselError
  /-- `Table::metadata(conn, denylist)`: loads the per-table sub-entities. -/
  table_metadata : Table → List String → Except DieselError TableMetadata
  /-- `Column::metadata(table, conn)`. -/
  column_metadata : Column → Table → Except DieselError ColumnMetadata
  /-- `CheckConstraint::functions(conn)`: the `pg_depend`-based dependency
  query returning the functions the low-level constraint depends on. -/
  check_constraint_functions : CheckConstraint → Except DieselError (List PgProc)
  /-- The `sqlparser` expression parser:
  `Parser::try_with_sql(s).ok()?.parse_expr().ok()`, both fallible steps
  collapsed into one `Option`. -/
  parse_expr : String → Option Expr
  /-- `sql_traits::utils::columns_in_expression` (external crate): the subset
  of the table's columns referenced by an expression. -/
  columns_in_expression : Expr → String → List Column → List Column
  /-- `KeyColumnUsage::metadata(table, conn)`. -/
  fk_metadata : KeyColumnUsage → Table → Except DieselError KeyColumnUsageMetadata
  /-- `PgIndex::metadata(table, conn)`. -/
  index_metadata : PgIndex → Table → Except DieselError UniqueIndexMetadata
  /-- `pg_policy_table::cached_queries::roles(policy, conn)`: the
  `pg_authid` rows whose OID is in the policy's `polroles` array. -/
  policy_roles : PgPolicyTable → Except DieselError (List PgAuthid)
  /-- The `pg_auth_members` query inside
  `pg_role::cached_queries::member_of`: the `roleid`s of the rows whose
  `member` equals the given role's OID. -/
  auth_members_query : Nat → Except DieselError (List Nat)

/-- The row filter of `pg_proc::cached_queries::load_all`
(src/models/pg_catalog/pg_proc/cached_queries.rs): kind not in {p, a}
(excludes procedures and aggregates), strict, non-set-returning, and
non-void (non-zero) return type. -/
def pgProcLoadFilter (p : PgProc) : Bool :=
  (p.prokind != "p" && p.prokind != "a")
    && p.proisstrict && !p.proretset && (p.prorettype != 0)

/-- The `ORDER BY proname ASC, oid ASC` comparison of
`pg_proc::cached_queries::load_all`. -/
def pgProcLe (a b : PgProc) : Bool :=
  decide (a.proname < b.proname) || (a.proname == b.proname && decide (a.oid ≤ b.oid))

/-- `PgProc::load_all` (src/models/pg_catalog/pg_proc.rs delegating to
src/models/pg_catalog/pg_proc/cached_queries.rs): the filtered `pg_proc`
rows ordered by (name, OID). -/
def PgProc.load_all (conn : Conn) : Except DieselError (List PgProc) :=
  match conn.pg_proc_load_err with
  | some e => .error e
  | none => .ok ((conn.pg_proc_rows.filter pgProcLoadFilter).mergeSort pgProcLe)

/-- `PgRole::load_all` (src/models/pg_catalog/pg_role/cached_queries.rs):
a plain select of every `pg_roles` row. -/
def PgRole.load_all (conn : Conn) : Except DieselError (List PgRole) :=
  match conn.pg_roles_load_err with
  | some e => .error e
  | none => .ok conn.pg_roles_rows

/-- The row filter of `load_all_tables`
(src/models/information_schema/table/cached_queries.rs): catalog and schema
equality, and table name not equal to "__diesel_schema_migrations". -/
def tableLoadFilter (table_catalog table_schema : String) (t : Table) : Bool :=
  t.table_catalog == table_catalog && t.table_schema == table_schema
    && t.table_name != "__diesel_schema_migrations"

/-- `load_all_tables` (src/models/information_schema/table/cached_queries.rs):
the filtered `information_schema.tables` rows ordered by name. -/
def load_all_tables (table_catalog table_schema : String) (conn : Conn) :
    Except DieselError (List Table) :=
  match conn.tables_load_err with
  | some e => .error e
  | none =>
    .ok ((conn.tables_rows.filter (tableLoadFilter table_catalog table_schema)).mergeSort
      (fun a b => a.table_name ≤ b.table_name))

/-- `Table::load_all(conn, catalog, schema)` as called by the builder; the
wrapper itself lives in the absent table.rs and delegates to
`load_all_tables` (the only query with that shape). -/
def Table.load_all (conn : Conn) (table_catalog table_schema : String) :
    Except DieselError (List Table) :=
  load_all_tables table_catalog table_schema conn

/-- `pg_role::cached_queries::member_of`
(src/models/pg_catalog/pg_role/cached_queries.rs): errs with `NotFound`
when the role's OID is absent, else queries `pg_auth_members`. -/
def member_of (role : PgRole) (conn : Conn) : Except DieselError (List Nat) :=
  match role.oid with
  | none => .error DieselError.NotFound
  | some role_oid => conn.auth_members_query role_oid

/-- Modelled from the spec: `sql_traits::structs::generic_db::GenericDBBuilder`
(external crate).  Per §4.4 the graph accumulates each added entity with its
metadata in the fixed build-time order; each `add_*` call appends one
entity/metadata pair. -/
structure GenericDBBuilder where
  catalog : String
  functions : List (PgProc × PgProcMetadata) := []
  columns : List (Column × ColumnMetadata) := []
  check_constraints : List (CheckConstraint × CheckMetadata) := []
  foreign_keys : List (KeyColumnUsage × KeyColumnUsageMetadata) := []
  unique_indexes : List (PgIndex × UniqueIndexMetadata) := []
  triggers : List TriggerMetadata := []
  policies : List (PgPolicyTable × PolicyMetadata) := []
  tables : List (Table × TableMetadata) := []
  roles : List (PgRole × RoleMetadata) := []
deriving DecidableEq

/-- `GenericDBBuilder::new(catalog)`. -/
def GenericDBBuilder.new (catalog : String) : GenericDBBuilder :=
  { catalog := catalog }

def GenericDBBuilder.add_function (b : GenericDBBuilder) (f : PgProc)
    (m : PgProcMetadata) : GenericDBBuilder :=
  { b with functions := b.functions ++ [(f, m)] }

def GenericDBBuilder.add_column (b : GenericDBBuilder) (c : Column)
    (m : ColumnMetadata) : GenericDBBuilder :=
  { b with columns := b.columns ++ [(c, m)] }

def GenericDBBuilder.add_check_constraint (b : GenericDBBuilder)
    (c : CheckConstraint) (m : CheckMetadata) : GenericDBBuilder :=
  { b with check_constraints := b.check_constraints ++ [(c, m)] }

def GenericDBBuilder.add_foreign_key (b : GenericDBBuilder) (fk : KeyColumnUsage)
    (m : KeyColumnUsageMetadata) : GenericDBBuilder :=
  { b with foreign_keys := b.foreign_keys ++ [(fk, m)] }

def GenericDBBuilder.add_unique_index (b : GenericDBBuilder) (i : PgIndex)
    (m : UniqueIndexMetadata) : GenericDBBuilder :=
  { b with unique_indexes := b.unique_indexes ++ [(i, m)] }

def GenericDBBuilder.add_trigger (b : GenericDBBuilder)
    (t : TriggerMetadata) : GenericDBBuilder :=
  { b with triggers := b.triggers ++ [t] }

def GenericDBBuilder.add_policy (b : GenericDBBuilder) (p : PgPolicyTable)
    (m : PolicyMetadata) : GenericDBBuilder :=
  { b with policies := b.policies ++ [(p, m)] }

def GenericDBBuilder.add_table (b : GenericDBBuilder) (t : Table)
    (m : TableMetadata) : GenericDBBuilder :=
  { b with tables := b.tables ++ [(t, m)] }

def GenericDBBuilder.add_role (b : GenericDBBuilder) (r : PgRole)
    (m : RoleMetadata) : GenericDBBuilder :=
  { b with roles := b.roles ++ [(r, m)] }

/-- `PgDieselDatabase`: the immutable graph produced by
`GenericDBBuilder::into()`. -/
structure PgDieselDatabase where
  graph : GenericDBBuilder
deriving DecidableEq

/-- `GenericDBBuilder::into()` for `PgDieselDatabase`. -/
def GenericDBBuilder.toDatabase (b : GenericDBBuilder) : PgDieselDatabase :=
  { graph := b }

/-- `PgDieselDatabaseBuilder` (src/database/builder.rs). -/
structure PgDieselDatabaseBuilder where
  connection : Option Conn
  catalog : Option String
  schemas : List String
  denylist_types : List String

/-- `PgDieselDatabaseBuilder::default()`. -/
def PgDieselDatabaseBuilder.mkDefault : PgDieselDatabaseBuilder :=
  { connection := none, catalog := none, schemas := [], denylist_types := [] }

/-- `PgDieselDatabaseBuilder::schema`: unconditionally pushes the name. -/
def PgDieselDatabaseBuilder.schema (b : PgDieselDatabaseBuilder) (s : String) :
    PgDieselDatabaseBuilder :=
  { b with schemas := b.schemas ++ [s] }

/-- `PgDieselDatabaseBuilder::schemas` (named `schemasBulk` here because the
field of the same name occupies the Rust method's name): pushes each name
that is not already contained in the evolving schema list. -/
def PgDieselDatabaseBuilder.schemasBulk (b : PgDieselDatabaseBuilder)
    (ss : List String) : PgDieselDatabaseBuilder :=
  ss.foldl (fun b s => if b.schemas.contains s then b else b.schema s) b

/-- `PgDieselDatabaseBuilder::denylist_type`: errs with
`DuplicateDenylistedType` if the type is already denylisted, else appends. -/
def PgDieselDatabaseBuilder.denylist_type (b : PgDieselDatabaseBuilder)
    (ty : String) : Except PgDatabaseBuildError PgDieselDatabaseBuilder :=
  if b.denylist_types.contains ty then
    .error (PgDatabaseBuildError.DuplicateDenylistedType ty)
  else
    .ok { b with denylist_types := b.denylist_types ++ [ty] }

/-- `std::collections::HashMap::insert`, modelled on an association list:
an existing binding of the key is overwritten, otherwise the binding is
appended. -/
def insertAssoc {α : Type} (m : List (Nat × α)) (k : Nat) (v : α) : List (Nat × α) :=
  if m.any (fun p => p.1 == k) then
    m.map (fun p => if p.1 == k then (k, v) else p)
  else m ++ [(k, v)]

/-- `std::collections::HashMap::get`, modelled on an association list. -/
def lookupAssoc {α : Type} (m : List (Nat × α)) (k : Nat) : Option α :=
  (m.find? (fun p => p.1 == k)).map (fun p => p.2)

/-- `Result::unwrap_or_default` for a list-valued query result. -/
def unwrapOrNil {α : Type} (r : Except DieselError (List α)) : List α :=
  match r with
  | .ok v => v
  | .error _ => []

/-- The function-loading stage of `try_from` (src/database/builder.rs):
`for function in PgProc::load_all(connection)?` — resolve each function's
metadata (propagating its error) and `add_function` it. -/
def loadFunctions (conn : Conn) (gb : GenericDBBuilder) :
    Except DieselError GenericDBBuilder := do
  let functions ← PgProc.load_all conn
  functions.foldlM (fun gb function => do
      let metadata ← conn.pg_proc_metadata function
      .ok (gb.add_function function metadata)) gb

/-- One step of the table-collection loop of `try_from`:
`tables.extend(Table::load_all(connection, catalog, schema)?)`. -/
def tablesFoldStep (conn : Conn) (table_catalog : String) (acc : List Table)
    (table_schema : String) : Except DieselError (List Table) := do
  let ts ← Table.load_all conn table_catalog table_schema
  .ok (acc ++ ts)

/-- The `sort_by_key` comparison of `try_from`: the
(`table_schema().unwrap_or("")`, `table_name`) key, lexicographically. -/
def tableSortLe (a b : Table) : Bool :=
  decide (a.table_schemaOpt.getD "" < b.table_schemaOpt.getD "")
    || (a.table_schemaOpt.getD "" == b.table_schemaOpt.getD ""
          && decide (a.table_name ≤ b.table_name))

/-- The table-collection stage of `try_from`: extend over every requested
schema, then sort globally by the (schema, name) key (a stable sort, as
Rust's `sort_by_key`). -/
def loadTablesAll (conn : Conn) (table_catalog : String) (table_schemas : List String) :
    Except DieselError (List Table) := do
  let tables ← table_schemas.foldlM (tablesFoldStep conn table_catalog) ([] : List Table)
  .ok (tables.mergeSort tableSortLe)

/-- The column loop of `try_from`: each column's metadata is loaded
(propagating its error) and the column is added. -/
def processColumns (conn : Conn) (table : Table) (gb : GenericDBBuilder)
    (cols : List Column) : Except DieselError GenericDBBuilder :=
  cols.foldlM (fun gb column => do
      let metadata ← conn.column_metadata column table
      .ok (gb.add_column column metadata)) gb

/-- `CheckConstraint::metadata`
(src/models/information_schema/check_constraint.rs): parse the check clause
(the `.expect(..)` panic on parse failure is the `none` of the outer
`Option`), query the constraint's dependency functions (propagating the
query error), intersect the expression's identifiers with the table's
columns, and keep, for each dependency function, the first already-loaded
function with the same name. -/
def CheckConstraint.metadata (cc : CheckConstraint) (table : Table)
    (table_metadata : TableMetadata) (functions : List PgProc) (conn : Conn) :
    Option (Except DieselError CheckMetadata) :=
  match conn.parse_expr cc.check_clause with
  | none => none
  | some expression =>
    some (do
      let deps ← conn.check_constraint_functions cc
      .ok { expression := expression
            table := table
            columns := conn.columns_in_expression expression table.table_name
              table_metadata.columns
            functions := deps.filterMap (fun func =>
              functions.find? (fun table_func => table_func.name == func.proname)) })

/-- The check-constraint loop of `try_from`; the parse panic inside
`CheckConstraint::metadata` aborts the process (outer `none`), a query error
is propagated as `Diesel`. -/
def processCheckConstraints (conn : Conn) (table : Table)
    (table_metadata : TableMetadata) (functions : List PgProc)
    (gb : GenericDBBuilder) :
    List CheckConstraint → Option (Except PgDatabaseBuildError GenericDBBuilder)
  | [] => some (.ok gb)
  | cc :: rest =>
    match CheckConstraint.metadata cc table table_metadata functions conn with
    | none => none
    | some (.error e) => some (.error (PgDatabaseBuildError.Diesel e))
    | some (.ok metadata) =>
      processCheckConstraints conn table table_metadata functions
        (gb.add_check_constraint cc metadata) rest

/-- The foreign-key loop of `try_from`. -/
def processForeignKeys (conn : Conn) (table : Table) (gb : GenericDBBuilder)
    (fks : List KeyColumnUsage) : Except DieselError GenericDBBuilder :=
  fks.foldlM (fun gb fk => do
      let metadata ← conn.fk_metadata fk table
      .ok (gb.add_foreign_key fk metadata)) gb

/-- The unique-index loop of `try_from`. -/
def processUniqueIndexes (conn : Conn) (table : Table) (gb : GenericDBBuilder)
    (indexes : List PgIndex) : Except DieselError GenericDBBuilder :=
  indexes.foldlM (fun gb index => do
      let metadata ← conn.index_metadata index table
      .ok (gb.add_unique_index index metadata)) gb

/-- The trigger loop of `try_from`: infallible, each (trigger, function OID)
pair is wrapped in a `TriggerMetadata` and added. -/
def processTriggers (table : Table) (gb : GenericDBBuilder)
    (triggers : List (Triggers × Option Nat)) : GenericDBBuilder :=
  triggers.foldl (fun gb tf =>
    gb.add_trigger (TriggerMetadata.new tf.1 table tf.2)) gb

/-- The `parse_expr` closure of the policy loop of `try_from`
(src/database/builder.rs): `sql.as_ref().and_then(parse)`. -/
def parseExprOpt (conn : Conn) (sql : Option String) : Option Expr :=
  sql.bind conn.parse_expr

/-- The `PolicyMetadata` built for one policy by the policy loop of
`try_from`, given the `pg_authid` rows of the roles query: USING and WITH
CHECK clause texts independently and optionally parsed, empty function
lists, and the role list mapped to `Owner::Ident` values. -/
def policyMetadataOf (conn : Conn) (table : Table) (policy : PgPolicyTable)
    (rolesRows : List PgAuthid) : PolicyMetadata :=
  PolicyMetadata.new table [] []
    (parseExprOpt conn policy.polqual)
    (parseExprOpt conn policy.polwithcheck)
    (rolesRows.map (fun r => Owner.Ident ⟨r.rolname⟩))

/-- The policy loop of `try_from`: only the roles query is fallible; parse
failures yield absent expressions and the policy is added regardless. -/
def processPolicies (conn : Conn) (table : Table) (gb : GenericDBBuilder)
    (policies : List PgPolicyTable) : Except DieselError GenericDBBuilder :=
  policies.foldlM (fun gb policy => do
      let rolesRows ← conn.policy_roles policy
      .ok (gb.add_policy policy (policyMetadataOf conn table policy rolesRows))) gb

/-- The body of the per-table loop of `try_from`: load the table's metadata,
then process columns, check constraints, foreign keys, unique indexes,
triggers, and policies, and finally add the table itself. -/
def processTable (conn : Conn) (denylist : List String) (gb : GenericDBBuilder)
    (table : Table) : Option (Except PgDatabaseBuildError GenericDBBuilder) :=
  match conn.table_metadata table denylist with
  | .error e => some (.error (PgDatabaseBuildError.Diesel e))
  | .ok table_metadata =>
    match processColumns conn table gb table_metadata.columns with
    | .error e => some (.error (PgDatabaseBuildError.Diesel e))
    | .ok gb =>
      match processCheckConstraints conn table table_metadata
        (gb.functions.map Prod.fst) gb table_metadata.check_constraints with
      | none => none
      | some (.error e) => some (.error e)
      | some (.ok gb) =>
        match processForeignKeys conn table gb table_metadata.foreign_keys with
        | .error e => some (.error (PgDatabaseBuildError.Diesel e))
        | .ok gb =>
          match processUniqueIndexes conn table gb table_metadata.unique_indexes with
          | .error e => some (.error (PgDatabaseBuildError.Diesel e))
          | .ok gb =>
            match processPolicies conn table (processTriggers table gb table_metadata.triggers)
              table_metadata.policies with
            | .error e => some (.error (PgDatabaseBuildError.Diesel e))
            | .ok gb => some (.ok (gb.add_table table table_metadata))

/-- The per-table loop of `try_from` over the sorted table list. -/
def processTables (conn : Conn) (denylist : List String) (gb : GenericDBBuilder) :
    List Table → Option (Except PgDatabaseBuildError GenericDBBuilder)
  | [] => some (.ok gb)
  | t :: ts =>
    match processTable conn denylist gb t with
    | none => none
    | some (.error e) => some (.error e)
    | some (.ok gb2) => processTables conn denylist gb2 ts

/-- The loop body of the first role-finalization pass of `try_from`,
accumulating the `roles_map` and `role_memberships` maps. -/
def collectRoleDataAux (conn : Conn) (rm : List (Nat × PgRole))
    (mm : List (Nat × List Nat)) :
    List PgRole → List (Nat × PgRole) × List (Nat × List Nat)
  | [] => (rm, mm)
  | role :: rest =>
    match role.oid with
    | some role_oid =>
      collectRoleDataAux conn (insertAssoc rm role_oid role)
        (insertAssoc mm role_oid (unwrapOrNil (member_of role conn))) rest
    | none => collectRoleDataAux conn rm mm rest

/-- The first pass of role finalization in `try_from`: for each role with a
present OID, register it in the OID-keyed `roles_map` and record its raw
granted-role OID list in `role_memberships` — the `member_of` query result
is taken with `unwrap_or_default()`, so a query error degrades to the empty
list.  Roles whose OID is absent are skipped entirely. -/
def collectRoleData (conn : Conn) (roles : List PgRole) :
    List (Nat × PgRole) × List (Nat × List Nat) :=
  collectRoleDataAux conn [] [] roles

/-- The loop body of the second role-finalization pass of `try_from`,
iterating over the entries of `roles_map`. -/
def finalizeRolesAux (roles_map : List (Nat × PgRole))
    (role_memberships : List (Nat × List Nat)) (gb : GenericDBBuilder) :
    List (Nat × PgRole) → GenericDBBuilder
  | [] => gb
  | entry :: rest =>
    match lookupAssoc role_memberships entry.1 with
    | none => finalizeRolesAux roles_map role_memberships gb rest
    | some member_of_oids =>
      finalizeRolesAux roles_map role_memberships
        (gb.add_role entry.2 (RoleMetadata.new
          (member_of_oids.filterMap (fun oid => lookupAssoc roles_map oid)) [])) rest

/-- The second pass of role finalization in `try_from`: for each registered
role, resolve its recorded OID list into direct handles to registered
sibling roles, skipping unresolvable OIDs, and add the role with its
metadata. -/
def finalizeRoles (roles_map : List (Nat × PgRole))
    (role_memberships : List (Nat × List Nat)) (gb : GenericDBBuilder) :
    GenericDBBuilder :=
  finalizeRolesAux roles_map role_memberships gb roles_map

/-- The successful prefix of `try_from` up to (and excluding) role
finalization: attribute validation, function loading, role loading, table
loading, and the per-table loop. -/
def tryFromPrefix (value : PgDieselDatabaseBuilder) :
    Option (Except PgDatabaseBuildError (Conn × List PgRole × GenericDBBuilder)) :=
  match value.connection with
  | none => some (.error (PgDatabaseBuildError.MissingAttribute "connection"))
  | some conn =>
    match value.catalog with
    | none => some (.error (PgDatabaseBuildError.MissingAttribute "catalog"))
    | some table_catalog =>
      if value.schemas.isEmpty then
        some (.error (PgDatabaseBuildError.MissingAttribute "schemas"))
      else
        match loadFunctions conn (GenericDBBuilder.new table_catalog) with
        | .error e => some (.error (PgDatabaseBuildError.Diesel e))
        | .ok gb =>
          match PgRole.load_all conn with
          | .error e => some (.error (PgDatabaseBuildError.Diesel e))
          | .ok roles =>
            match loadTablesAll conn table_catalog value.schemas with
            | .error e => some (.error (PgDatabaseBuildError.Diesel e))
            | .ok tables =>
              match processTables conn value.denylist_types gb tables with
              | none => none
              | some (.error e) => some (.error e)
              | some (.ok gb) => some (.ok (conn, roles, gb))

/-- `TryFrom<PgDieselDatabaseBuilder> for PgDieselDatabase`
(src/database/builder.rs): the whole build; `none` is a process panic (a
check-clause parse failure), `some (.error e)` the single typed error,
`some (.ok db)` the completed graph. -/
def tryFrom (value : PgDieselDatabaseBuilder) :
    Option (Except PgDatabaseBuildError PgDieselDatabase) :=
  match tryFromPrefix value with
  | none => none
  | some (.error e) => some (.error e)
  | some (.ok (conn, roles, gb)) =>
    let rd := collectRoleData conn roles
    some (.ok (finalizeRoles rd.1 rd.2 gb).toDatabase)

/-! ## Claim theorems -/

theorem except_bind_ok {ε α β : Type} (a : α) (f : α → Except ε β) :
    (Except.ok a : Except ε α) >>= f = f a := rfl

theorem except_bind_err {ε α β : Type} (e : ε) (f : α → Except ε β) :
    (Except.error e : Except ε α) >>= f = Except.error e := rfl

theorem except_pure {ε α : Type} (a : α) :
    (pure a : Except ε α) = Except.ok a := rfl

instance {ε α : Type} [DecidableEq ε] [DecidableEq α] : DecidableEq (Except ε α) :=
  fun x y =>
    match x, y with
    | .error a, .error b =>
      if h : a = b then isTrue (by rw [h])
      else isFalse (by intro hh; cases hh; exact h rfl)
    | .ok a, .ok b =>
      if h : a = b then isTrue (by rw [h])
      else isFalse (by intro hh; cases hh; exact h rfl)
    | .error a, .ok b => isFalse (by intro hh; cases hh)
    | .ok a, .error b => isFalse (by intro hh; cases hh)

/-- C7: for every builder state and type string, `denylist_type` appends the
string (in a fresh builder value) when not yet present, and returns
`DuplicateDenylistedType` carrying exactly that string — producing no
updated builder — when already present; adding the same entry twice yields
success then the duplicate error, the successful intermediate holding the
single first occurrence. -/
theorem denylist_type_duplicate_rejection (b : PgDieselDatabaseBuilder) (ty : String) :
    (ty ∉ b.denylist_types →
      b.denylist_type ty = .ok { b with denylist_types := b.denylist_types ++ [ty] })
    ∧ (ty ∈ b.denylist_types →
      b.denylist_type ty = .error (PgDatabaseBuildError.DuplicateDenylistedType ty))
    ∧ (ty ∉ b.denylist_types →
      (b.denylist_type ty >>= fun b1 => b1.denylist_type ty) =
        .error (PgDatabaseBuildError.DuplicateDenylistedType ty)) := by
  have hok : ty ∉ b.denylist_types →
      b.denylist_type ty = .ok { b with denylist_types := b.denylist_types ++ [ty] } := by
    intro h
    simp [PgDieselDatabaseBuilder.denylist_type, h]
  have herr : ∀ b2 : PgDieselDatabaseBuilder, ty ∈ b2.denylist_types →
      b2.denylist_type ty = .error (PgDatabaseBuildError.DuplicateDenylistedType ty) := by
    intro b2 h
    simp [PgDieselDatabaseBuilder.denylist_type, h]
  refine ⟨hok, herr b, fun h => ?_⟩
  rw [hok h]
  show ({ b with denylist_types := b.denylist_types ++ [ty] } :
    PgDieselDatabaseBuilder).denylist_type ty = _
  exact herr _ (by simp)

/-- Closed witness for the `denylist_type` theorem at an explicit input. -/
theorem denylist_type_duplicate_rejection_witness :
    PgDieselDatabaseBuilder.mkDefault.denylist_type "foo" =
      .ok { PgDieselDatabaseBuilder.mkDefault with denylist_types := ["foo"] }
    ∧ (PgDieselDatabaseBuilder.mkDefault.denylist_type "foo" >>=
        fun b1 => b1.denylist_type "foo") =
      .error (PgDatabaseBuildError.DuplicateDenylistedType "foo")
    ∧ { PgDieselDatabaseBuilder.mkDefault with
        denylist_types := ["foo"] }.denylist_type "foo" =
      .error (PgDatabaseBuildError.DuplicateDenylistedType "foo") := by
  refine ⟨?_, ?_, ?_⟩
  · exact (denylist_type_duplicate_rejection PgDieselDatabaseBuilder.mkDefault "foo").1
      (by simp [PgDieselDatabaseBuilder.mkDefault])
  · exact (denylist_type_duplicate_rejection PgDieselDatabaseBuilder.mkDefault "foo").2.2
      (by simp [PgDieselDatabaseBuilder.mkDefault])
  · exact (denylist_type_duplicate_rejection
      { PgDieselDatabaseBuilder.mkDefault with denylist_types := ["foo"] } "foo").2.1
      (by simp)

/-- The names appended by `PgDieselDatabaseBuilder::schemas` on top of an
existing schema list: each candidate not contained in the evolving list. -/
def newSchemas (acc : List String) : List String → List String
  | [] => []
  | s :: rest =>
    if acc.contains s then newSchemas acc rest
    else s :: newSchemas (acc ++ [s]) rest

theorem schemasBulk_schemas_eq (ss : List String) (b : PgDieselDatabaseBuilder) :
    (b.schemasBulk ss).schemas = b.schemas ++ newSchemas b.schemas ss := by
  induction ss generalizing b with
  | nil => simp [PgDieselDatabaseBuilder.schemasBulk, newSchemas]
  | cons s rest ih =>
    by_cases h : b.schemas.contains s
    · unfold PgDieselDatabaseBuilder.schemasBulk newSchemas
      simp only [List.foldl_cons, if_pos h]
      exact ih b
    · unfold PgDieselDatabaseBuilder.schemasBulk newSchemas
      simp only [List.foldl_cons, if_neg h]
      have h2 := ih (b.schema s)
      unfold PgDieselDatabaseBuilder.schemasBulk at h2
      rw [h2]
      simp [PgDieselDatabaseBuilder.schema]

/-- C8: schema registration is asymmetric — the bulk entry point appends
only the names not already present in the (evolving) schema list, while the
single entry point appends unconditionally; in particular
`add("public"); bulk_add(["public","private"])` yields
`["public","private"]` and `add("public"); add("public")` yields
`["public","public"]`. -/
theorem schema_registration_asymmetry (b : PgDieselDatabaseBuilder) :
    (∀ s : String, (b.schema s).schemas = b.schemas ++ [s])
    ∧ (∀ ss : List String,
        (b.schemasBulk ss).schemas = b.schemas ++ newSchemas b.schemas ss)
    ∧ ((PgDieselDatabaseBuilder.mkDefault.schema "public").schemasBulk
        ["public", "private"]).schemas = ["public", "private"]
    ∧ ((PgDieselDatabaseBuilder.mkDefault.schema "public").schema "public").schemas =
        ["public", "public"] := by
  refine ⟨fun s => rfl, fun ss => schemasBulk_schemas_eq ss b, ?_, rfl⟩
  rw [schemasBulk_schemas_eq]
  rfl

/-- A concrete referential constraint (the dummy of the source's unit
tests), parameterized on the two fields the rule methods read. -/
def sampleRC (match_option delete_rule : String) : ReferentialConstraint :=
  { constraint_catalog := "db"
    constraint_schema := "schema"
    constraint_name := "constraint"
    unique_constraint_catalog := none
    unique_constraint_schema := none
    unique_constraint_name := none
    match_option := match_option
    update_rule := "NO ACTION"
    delete_rule := delete_rule }

/-- C2: `on_delete_cascade` is true exactly when the delete rule is
case-insensitively "CASCADE", and `match_kind` maps the match option
case-insensitively: "FULL" to `Full`, "PARTIAL" to `Partial`, "SIMPLE" and
"NONE" both to `Simple`, and any other string to the fatal `unreachable!`
panic (the `none` of the model), not a recoverable error.  Closed instances
exercise both case folding and the panic arm. -/
theorem referential_constraint_rule_mapping (rc : ReferentialConstraint) :
    (rc.on_delete_cascade = true ↔ upperBytes rc.delete_rule = strBytes "CASCADE")
    ∧ (rc.match_kind = some .Full ↔ upperBytes rc.match_option = strBytes "FULL")
    ∧ (rc.match_kind = some .Partial ↔ upperBytes rc.match_option = strBytes "PARTIAL")
    ∧ (rc.match_kind = some .Simple ↔
        (upperBytes rc.match_option = strBytes "SIMPLE"
          ∨ upperBytes rc.match_option = strBytes "NONE"))
    ∧ (rc.match_kind = none ↔
        (upperBytes rc.match_option ≠ strBytes "FULL"
          ∧ upperBytes rc.match_option ≠ strBytes "PARTIAL"
          ∧ upperBytes rc.match_option ≠ strBytes "SIMPLE"
          ∧ upperBytes rc.match_option ≠ strBytes "NONE"))
    ∧ (sampleRC "SIMPLE" "cAsCaDe").on_delete_cascade = true
    ∧ (sampleRC "SIMPLE" "NO ACTION").on_delete_cascade = false
    ∧ (sampleRC "none" "NO ACTION").match_kind = some .Simple
    ∧ (sampleRC "Partial" "NO ACTION").match_kind = some .Partial
    ∧ (sampleRC "INVALID" "NO ACTION").match_kind = none := by
  have h := match_kind_cases rc
  exact ⟨eqIgnoreAsciiCase_cascade rc.delete_rule, h.1, h.2.1, h.2.2.1, h.2.2.2,
    by decide, by decide, by decide, by decide, by decide⟩

/-- C9 (query level): `load_all_tables` never returns a table named
`__diesel_schema_migrations` — the filter excludes that name whatever the
underlying rows are. -/
theorem load_all_tables_no_migrations (table_catalog table_schema : String)
    (conn : Conn) (ts : List Table)
    (h : load_all_tables table_catalog table_schema conn = .ok ts) :
    ∀ t ∈ ts, t.table_name ≠ "__diesel_schema_migrations" := by
  intro t ht
  unfold load_all_tables at h
  cases he : conn.tables_load_err with
  | some e => rw [he] at h; cases h
  | none =>
    rw [he] at h
    cases h
    rw [List.mem_mergeSort] at ht
    have hf := List.of_mem_filter ht
    unfold tableLoadFilter at hf
    simp only [Bool.and_eq_true, bne_iff_ne, ne_eq] at hf
    exact hf.2

theorem tablesFold_no_migrations (conn : Conn) (table_catalog : String) :
    ∀ (ss : List String) (acc res : List Table),
      ss.foldlM (tablesFoldStep conn table_catalog) acc = .ok res →
      ∀ t ∈ res, t ∈ acc ∨ t.table_name ≠ "__diesel_schema_migrations" := by
  intro ss
  induction ss with
  | nil =>
    intro acc res h t ht
    simp only [List.foldlM_nil] at h
    cases h
    exact Or.inl ht
  | cons s rest ih =>
    intro acc res h t ht
    simp only [List.foldlM_cons] at h
    cases hstep : tablesFoldStep conn table_catalog acc s with
    | error e => rw [hstep] at h; cases h
    | ok acc2 =>
      rw [hstep] at h
      have hmem := ih acc2 res h t ht
      cases hmem with
      | inr hne => exact Or.inr hne
      | inl hacc2 =>
        unfold tablesFoldStep at hstep
        cases hload : Table.load_all conn table_catalog s with
        | error e => rw [hload] at hstep; cases hstep
        | ok ts2 =>
          rw [hload] at hstep
          cases hstep
          rcases List.mem_append.mp hacc2 with hl | hr
          · exact Or.inl hl
          · exact Or.inr (load_all_tables_no_migrations table_catalog s conn ts2 hload t hr)

theorem loadTablesAll_no_migrations (conn : Conn) (table_catalog : String)
    (table_schemas : List String) (ts : List Table)
    (h : loadTablesAll conn table_catalog table_schemas = .ok ts) :
    ∀ t ∈ ts, t.table_name ≠ "__diesel_schema_migrations" := by
  intro t ht
  unfold loadTablesAll at h
  cases hfold : table_schemas.foldlM (tablesFoldStep conn table_catalog) ([] : List Table) with
  | error e => rw [hfold] at h; cases h
  | ok tables =>
    rw [hfold] at h
    have h2 : (Except.ok (tables.mergeSort tableSortLe) : Except DieselError (List Table)) = Except.ok ts := h
    cases h2
    rw [List.mem_mergeSort] at ht
    have := tablesFold_no_migrations conn table_catalog table_schemas [] tables hfold t ht
    cases this with
    | inl habs => cases habs
    | inr hne => exact hne

theorem foldlM_tables_preserved {β : Type}
    (f : GenericDBBuilder → β → Except DieselError GenericDBBuilder)
    (hf : ∀ gb x gb2, f gb x = .ok gb2 → gb2.tables = gb.tables) :
    ∀ (l : List β) (gb gb2 : GenericDBBuilder),
      l.foldlM f gb = .ok gb2 → gb2.tables = gb.tables := by
  intro l
  induction l with
  | nil =>
    intro gb gb2 h
    simp only [List.foldlM_nil] at h
    cases h
    rfl
  | cons x rest ih =>
    intro gb gb2 h
    simp only [List.foldlM_cons] at h
    cases hstep : f gb x with
    | error e => rw [hstep] at h; cases h
    | ok gbmid =>
      rw [hstep] at h
      rw [ih gbmid gb2 h, hf gb x gbmid hstep]

theorem processColumns_tables_preserved (conn : Conn) (table : Table)
    (gb gb2 : GenericDBBuilder) (cols : List Column)
    (h : processColumns conn table gb cols = .ok gb2) : gb2.tables = gb.tables := by
  refine foldlM_tables_preserved _ ?_ cols gb gb2 h
  intro gb x gb2 hstep
  unfold GenericDBBuilder.add_column at hstep
  cases hq : conn.column_metadata x table with
  | error e => rw [hq] at hstep; cases hstep
  | ok m =>
    rw [hq] at hstep
    have h2 : (Except.ok { gb with columns := gb.columns ++ [(x, m)] } :
      Except DieselError GenericDBBuilder) = Except.ok gb2 := hstep
    cases h2
    rfl

theorem processForeignKeys_tables_preserved (conn : Conn) (table : Table)
    (gb gb2 : GenericDBBuilder) (fks : List KeyColumnUsage)
    (h : processForeignKeys conn table gb fks = .ok gb2) : gb2.tables = gb.tables := by
  refine foldlM_tables_preserved _ ?_ fks gb gb2 h
  intro gb x gb2 hstep
  unfold GenericDBBuilder.add_foreign_key at hstep
  cases hq : conn.fk_metadata x table with
  | error e => rw [hq] at hstep; cases hstep
  | ok m =>
    rw [hq] at hstep
    have h2 : (Except.ok { gb with foreign_keys := gb.foreign_keys ++ [(x, m)] } :
      Except DieselError GenericDBBuilder) = Except.ok gb2 := hstep
    cases h2
    rfl

theorem processUniqueIndexes_tables_preserved (conn : Conn) (table : Table)
    (gb gb2 : GenericDBBuilder) (idxs : List PgIndex)
    (h : processUniqueIndexes conn table gb idxs = .ok gb2) : gb2.tables = gb.tables := by
  refine foldlM_tables_preserved _ ?_ idxs gb gb2 h
  intro gb x gb2 hstep
  unfold GenericDBBuilder.add_unique_index at hstep
  cases hq : conn.index_metadata x table with
  | error e => rw [hq] at hstep; cases hstep
  | ok m =>
    rw [hq] at hstep
    have h2 : (Except.ok { gb with unique_indexes := gb.unique_indexes ++ [(x, m)] } :
      Except DieselError GenericDBBuilder) = Except.ok gb2 := hstep
    cases h2
    rfl

theorem processPolicies_tables_preserved (conn : Conn) (table : Table)
    (gb gb2 : GenericDBBuilder) (ps : List PgPolicyTable)
    (h : processPolicies conn table gb ps = .ok gb2) : gb2.tables = gb.tables := by
  refine foldlM_tables_preserved _ ?_ ps gb gb2 h
  intro gb x gb2 hstep
  unfold GenericDBBuilder.add_policy at hstep
  cases hq : conn.policy_roles x with
  | error e => rw [hq] at hstep; cases hstep
  | ok rs =>
    rw [hq] at hstep
    have h2 : (Except.ok { gb with policies :=
        gb.policies ++ [(x, policyMetadataOf conn table x rs)] } :
      Except DieselError GenericDBBuilder) = Except.ok gb2 := hstep
    cases h2
    rfl

theorem processTriggers_tables_preserved (table : Table) (gb : GenericDBBuilder)
    (trs : List (Triggers × Option Nat)) :
    (processTriggers table gb trs).tables = gb.tables := by
  induction trs generalizing gb with
  | nil => rfl
  | cons tr rest ih =>
    unfold processTriggers
    simp only [List.foldl_cons]
    exact ih _

theorem processCheckConstraints_tables_preserved (conn : Conn) (table : Table)
    (tm : TableMetadata) (functions : List PgProc) :
    ∀ (ccs : List CheckConstraint) (gb gb2 : GenericDBBuilder),
      processCheckConstraints conn table tm functions gb ccs = some (.ok gb2) →
      gb2.tables = gb.tables := by
  intro ccs
  induction ccs with
  | nil =>
    intro gb gb2 h
    unfold processCheckConstraints at h
    cases h
    rfl
  | cons cc rest ih =>
    intro gb gb2 h
    unfold processCheckConstraints at h
    cases hm : CheckConstraint.metadata cc table tm functions conn with
    | none => rw [hm] at h; cases h
    | some r =>
      rw [hm] at h
      cases r with
      | error e => cases h
      | ok metadata =>
        have := ih (gb.add_check_constraint cc metadata) gb2 h
        rw [this]
        rfl

theorem processTable_tables (conn : Conn) (denylist : List String)
    (gb gb2 : GenericDBBuilder) (table : Table)
    (h : processTable conn denylist gb table = some (.ok gb2)) :
    ∃ tm : TableMetadata, gb2.tables = gb.tables ++ [(table, tm)] := by
  unfold processTable at h
  split at h
  · exact absurd h (by simp)
  rename_i tm h1
  split at h
  · exact absurd h (by simp)
  rename_i gbA h2
  split at h
  · exact absurd h (by simp)
  · exact absurd h (by simp)
  rename_i gbB h3
  split at h
  · exact absurd h (by simp)
  rename_i gbC h4
  split at h
  · exact absurd h (by simp)
  rename_i gbD h5
  split at h
  · exact absurd h (by simp)
  rename_i gbE h6
  have hfin : gbE.add_table table tm = gb2 := by
    have := Option.some.inj h
    exact Except.ok.inj this
  cases hfin
  refine ⟨tm, ?_⟩
  show gbE.tables ++ [(table, tm)] = gb.tables ++ [(table, tm)]
  rw [processPolicies_tables_preserved conn table _ gbE tm.policies h6,
    processTriggers_tables_preserved,
    processUniqueIndexes_tables_preserved conn table gbC gbD tm.unique_indexes h5,
    processForeignKeys_tables_preserved conn table gbB gbC tm.foreign_keys h4,
    processCheckConstraints_tables_preserved conn table tm _ tm.check_constraints gbA gbB h3,
    processColumns_tables_preserved conn table gb gbA tm.columns h2]

theorem processTables_tables_mem (conn : Conn) (denylist : List String) :
    ∀ (ts : List Table) (gb gb2 : GenericDBBuilder),
      processTables conn denylist gb ts = some (.ok gb2) →
      ∀ p ∈ gb2.tables, p ∈ gb.tables ∨ p.1 ∈ ts := by
  intro ts
  induction ts with
  | nil =>
    intro gb gb2 h p hp
    unfold processTables at h
    cases h
    exact Or.inl hp
  | cons t rest ih =>
    intro gb gb2 h p hp
    unfold processTables at h
    cases hstep : processTable conn denylist gb t with
    | none => rw [hstep] at h; cases h
    | some r =>
      rw [hstep] at h
      cases r with
      | error e => cases h
      | ok gbmid =>
        have hmem := ih gbmid gb2 h p hp
        cases hmem with
        | inr hr => exact Or.inr (List.mem_cons_of_mem t hr)
        | inl hl =>
          obtain ⟨tm, htm⟩ := processTable_tables conn denylist gb gbmid t hstep
          rw [htm] at hl
          rcases List.mem_append.mp hl with h1 | h2
          · exact Or.inl h1
          · simp only [List.mem_singleton] at h2
            cases h2
            exact Or.inr (List.mem_cons_self t rest)

theorem loadFunctions_tables_preserved (conn : Conn) (gb gb2 : GenericDBBuilder)
    (h : loadFunctions conn gb = .ok gb2) : gb2.tables = gb.tables := by
  unfold loadFunctions at h
  cases hl : PgProc.load_all conn with
  | error e => rw [hl] at h; cases h
  | ok functions =>
    rw [hl] at h
    refine foldlM_tables_preserved _ ?_ functions gb gb2 h
    intro gb x gb2 hstep
    cases hq : conn.pg_proc_metadata x with
    | error e => rw [hq] at hstep; cases hstep
    | ok m =>
      rw [hq] at hstep
      have h2 : (Except.ok (gb.add_function x m) :
        Except DieselError GenericDBBuilder) = Except.ok gb2 := hstep
      cases h2
      rfl

theorem foldl_tables_preserved {β : Type}
    (f : GenericDBBuilder → β → GenericDBBuilder)
    (hf : ∀ gb x, (f gb x).tables = gb.tables) :
    ∀ (l : List β) (gb : GenericDBBuilder), (l.foldl f gb).tables = gb.tables := by
  intro l
  induction l with
  | nil => intro gb; rfl
  | cons x rest ih =>
    intro gb
    simp only [List.foldl_cons]
    rw [ih (f gb x), hf gb x]

theorem finalizeRolesAux_tables_preserved (rm : List (Nat × PgRole))
    (mm : List (Nat × List Nat)) :
    ∀ (l : List (Nat × PgRole)) (gb : GenericDBBuilder),
      (finalizeRolesAux rm mm gb l).tables = gb.tables := by
  intro l
  induction l with
  | nil => intro gb; rfl
  | cons e rest ih =>
    intro gb
    unfold finalizeRolesAux
    cases lookupAssoc mm e.1 with
    | none => exact ih gb
    | some mo => exact ih _

theorem finalizeRoles_tables_preserved (rm : List (Nat × PgRole))
    (mm : List (Nat × List Nat)) (gb : GenericDBBuilder) :
    (finalizeRoles rm mm gb).tables = gb.tables :=
  finalizeRolesAux_tables_preserved rm mm rm gb

/-- C9: table loading filters out `__diesel_schema_migrations` (whatever the
underlying catalog rows contain), and consequently the graph of a
successfully built database never contains a table of that name. -/
theorem no_diesel_schema_migrations_table (value : PgDieselDatabaseBuilder)
    (conn : Conn) (table_catalog : String) (table_schemas : List String)
    (ts : List Table) (db : PgDieselDatabase)
    (hload : loadTablesAll conn table_catalog table_schemas = .ok ts)
    (hbuild : tryFrom value = some (.ok db)) :
    (∀ t ∈ ts, t.table_name ≠ "__diesel_schema_migrations")
    ∧ (∀ p ∈ db.graph.tables, p.1.table_name ≠ "__diesel_schema_migrations") := by
  refine ⟨loadTablesAll_no_migrations conn table_catalog table_schemas ts hload, ?_⟩
  intro p hp
  unfold tryFrom at hbuild
  split at hbuild
  · exact absurd hbuild (by simp)
  · exact absurd hbuild (by simp)
  rename_i connB roles gb hpre
  have hdb : (finalizeRoles (collectRoleData connB roles).1
      (collectRoleData connB roles).2 gb).toDatabase = db := by
    have h1 := Option.some.inj hbuild
    exact Except.ok.inj h1
  cases hdb
  have hp2 : p ∈ gb.tables := by
    have hpres := finalizeRoles_tables_preserved (collectRoleData connB roles).1
      (collectRoleData connB roles).2 gb
    simpa [GenericDBBuilder.toDatabase, hpres] using hp
  unfold tryFromPrefix at hpre
  split at hpre
  · exact absurd hpre (by simp)
  rename_i connA hconn
  split at hpre
  · exact absurd hpre (by simp)
  rename_i cat hcat
  split at hpre
  · exact absurd hpre (by simp)
  rename_i hemp
  split at hpre
  · exact absurd hpre (by simp)
  rename_i gb0 hfun
  split at hpre
  · exact absurd hpre (by simp)
  rename_i roles0 hroles
  split at hpre
  · exact absurd hpre (by simp)
  rename_i tables0 htabs
  split at hpre
  · exact absurd hpre (by simp)
  · exact absurd hpre (by simp)
  rename_i gbP hproc
  have htrip : connA = connB ∧ roles0 = roles ∧ gbP = gb := by
    have h1 := Option.some.inj hpre
    have h2 := Except.ok.inj h1
    exact ⟨congrArg Prod.fst h2, congrArg (fun q => q.2.1) h2, congrArg (fun q => q.2.2) h2⟩
  obtain ⟨hc, hr, hg⟩ := htrip
  cases hc
  cases hr
  cases hg
  have hmem := processTables_tables_mem connB value.denylist_types
    tables0 gb0 gb hproc p hp2
  cases hmem with
  | inl h0 =>
    have h00 : gb0.tables = [] := by
      have hpres := loadFunctions_tables_preserved connB _ gb0 hfun
      simpa [GenericDBBuilder.new] using hpres
    rw [h00] at h0
    cases h0
  | inr hin =>
    exact loadTablesAll_no_migrations connB cat value.schemas tables0 htabs p.1 hin

theorem pgProcLe_iff (a b : PgProc) :
    pgProcLe a b = true ↔
      (a.proname < b.proname ∨ (a.proname = b.proname ∧ a.oid ≤ b.oid)) := by
  simp [pgProcLe]

theorem pgProcLe_trans (a b c : PgProc) :
    pgProcLe a b = true → pgProcLe b c = true → pgProcLe a c = true := by
  intro h1 h2
  rw [pgProcLe_iff] at h1 h2 ⊢
  rcases h1 with h1 | ⟨h1e, h1o⟩ <;> rcases h2 with h2 | ⟨h2e, h2o⟩
  · exact Or.inl (lt_trans h1 h2)
  · exact Or.inl (h2e ▸ h1)
  · exact Or.inl (h1e ▸ h2)
  · exact Or.inr ⟨h1e.trans h2e, le_trans h1o h2o⟩

theorem pgProcLe_total (a b : PgProc) :
    (pgProcLe a b || pgProcLe b a) = true := by
  rw [Bool.or_eq_true, pgProcLe_iff, pgProcLe_iff]
  rcases lt_trichotomy a.proname b.proname with h | h | h
  · exact Or.inl (Or.inl h)
  · rcases le_total a.oid b.oid with ho | ho
    · exact Or.inl (Or.inr ⟨h, ho⟩)
    · exact Or.inr (Or.inr ⟨h.symm, ho⟩)
  · exact Or.inr (Or.inl h)

/-- C6: `PgProc::load_all` returns exactly the `pg_proc` rows whose kind is
neither procedure nor aggregate, that are strict, non-set-returning, and
have a non-zero (non-void) return-type OID — as a permutation of (hence the
same multiset as) the filtered rows, with membership characterized by the
individual predicates — sorted ascending by the (name, OID) key. -/
theorem pg_proc_load_all_filter_sort (conn : Conn) (result : List PgProc)
    (h : PgProc.load_all conn = .ok result) :
    result.Perm (conn.pg_proc_rows.filter pgProcLoadFilter)
    ∧ (∀ p : PgProc, p ∈ result ↔
        (p ∈ conn.pg_proc_rows ∧ p.prokind ≠ "p" ∧ p.prokind ≠ "a"
          ∧ p.proisstrict = true ∧ p.proretset = false ∧ p.prorettype ≠ 0))
    ∧ result.Pairwise (fun a b =>
        a.proname < b.proname ∨ (a.proname = b.proname ∧ a.oid ≤ b.oid)) := by
  unfold PgProc.load_all at h
  cases he : conn.pg_proc_load_err with
  | some e => rw [he] at h; cases h
  | none =>
    rw [he] at h
    have h2 : ((conn.pg_proc_rows.filter pgProcLoadFilter).mergeSort pgProcLe :
      List PgProc) = result := Except.ok.inj h
    cases h2
    refine ⟨List.mergeSort_perm _ _, ?_, ?_⟩
    · intro p
      rw [List.mem_mergeSort, List.mem_filter]
      unfold pgProcLoadFilter
      simp [and_assoc]
    · have hs := List.sorted_mergeSort pgProcLe_trans pgProcLe_total
        (conn.pg_proc_rows.filter pgProcLoadFilter)
      exact hs.imp (fun hab => (pgProcLe_iff _ _).mp hab)

/-- A `pg_proc` row with the given identity and filter-relevant fields, all
other fields fixed to harmless values. -/
def sampleProc (oid : Nat) (proname prokind : String) (strict retset : Bool)
    (rettype : Nat) : PgProc :=
  { oid := oid
    proname := proname
    pronamespace := 1
    proowner := 1
    prolang := 1
    procost := 0
    prorows := 0
    provariadic := 0
    prosupport := 0
    prokind := prokind
    prosecdef := false
    proleakproof := false
    proisstrict := strict
    proretset := retset
    provolatile := "i"
    proparallel := "s"
    pronargs := 0
    pronargdefaults := 0
    prorettype := rettype
    proargtypes := []
    proallargtypes := none
    proargmodes := none
    proargnames := none
    proargdefaults := none
    protrftypes := none
    prosrc := "src"
    probin := none
    prosqlbody := none
    proconfig := none
    proacl := none }

/-- A `pg_roles` row with only the fields the builder reads. -/
def sampleRole (rolname : Option String) (oid : Option Nat) : PgRole :=
  { rolname := rolname
    rolsuper := none
    rolinherit := none
    rolcreaterole := none
    rolcreatedb := none
    rolcanlogin := none
    rolreplication := none
    rolconnlimit := none
    rolpassword := none
    rolvaliduntil := none
    rolbypassrls := none
    rolconfig := none
    oid := oid }

/-- A connection whose row tables are empty and whose query oracles all
fail: concrete scenarios override the fields they exercise. -/
def baseConn : Conn :=
  { pg_proc_rows := []
    pg_proc_load_err := none
    pg_proc_metadata := fun _ => .error DieselError.NotFound
    pg_roles_rows := []
    pg_roles_load_err := none
    tables_rows := []
    tables_load_err := none
    table_metadata := fun _ _ => .error DieselError.NotFound
    column_metadata := fun _ _ => .error DieselError.NotFound
    check_constraint_functions := fun _ => .error DieselError.NotFound
    parse_expr := fun _ => none
    columns_in_expression := fun _ _ _ => []
    fk_metadata := fun _ _ => .error DieselError.NotFound
    index_metadata := fun _ _ => .error DieselError.NotFound
    policy_roles := fun _ => .error DieselError.NotFound
    auth_members_query := fun _ => .error DieselError.NotFound }

/-- The connection of the `load_all` witness scenario: one ordinary strict
function among a procedure, an aggregate, a non-strict function, a
set-returning function, and a void-returning function. -/
def procScenarioConn : Conn :=
  { baseConn with pg_proc_rows :=
      [sampleProc 11 "agg" "a" true false 23,
       sampleProc 12 "keepme" "f" true false 23,
       sampleProc 13 "proc" "p" true false 23,
       sampleProc 14 "lax" "f" false false 23,
       sampleProc 15 "setret" "f" true true 23,
       sampleProc 16 "voidret" "f" true false 0] }

/-- Closed witness for the `PgProc::load_all` theorem at an explicit
catalog state. -/
theorem pg_proc_load_all_filter_sort_witness :
    ([sampleProc 12 "keepme" "f" true false 23] : List PgProc).Perm
      (procScenarioConn.pg_proc_rows.filter pgProcLoadFilter)
    ∧ (∀ p : PgProc, p ∈ ([sampleProc 12 "keepme" "f" true false 23] : List PgProc) ↔
        (p ∈ procScenarioConn.pg_proc_rows ∧ p.prokind ≠ "p" ∧ p.prokind ≠ "a"
          ∧ p.proisstrict = true ∧ p.proretset = false ∧ p.prorettype ≠ 0))
    ∧ ([sampleProc 12 "keepme" "f" true false 23] : List PgProc).Pairwise (fun a b =>
        a.proname < b.proname ∨ (a.proname = b.proname ∧ a.oid ≤ b.oid)) :=
  pg_proc_load_all_filter_sort procScenarioConn
    [sampleProc 12 "keepme" "f" true false 23]
    (by
      have hf : procScenarioConn.pg_proc_rows.filter pgProcLoadFilter =
          [sampleProc 12 "keepme" "f" true false 23] := by decide
      simp [PgProc.load_all, procScenarioConn, baseConn] at hf ⊢
      rw [hf]
      simp)

def tableGood : Table :=
  { table_catalog := "db", table_schema := "public", table_name := "users" }

def tableMigrations : Table :=
  { table_catalog := "db", table_schema := "public",
    table_name := "__diesel_schema_migrations" }

def emptyTableMetadata : TableMetadata :=
  { columns := [], check_constraints := [], foreign_keys := []
    unique_indexes := [], triggers := [], policies := [] }

/-- A catalog state in which `__diesel_schema_migrations` exists alongside
an ordinary table. -/
def migScenarioConn : Conn :=
  { baseConn with
    tables_rows := [tableMigrations, tableGood]
    table_metadata := fun _ _ => .ok emptyTableMetadata }

def migScenarioBuilder : PgDieselDatabaseBuilder :=
  { connection := some migScenarioConn
    catalog := some "db"
    schemas := ["public"]
    denylist_types := [] }

def migScenarioDB : PgDieselDatabase :=
  { graph := { catalog := "db", tables := [(tableGood, emptyTableMetadata)] } }

theorem migScenario_load :
    loadTablesAll migScenarioConn "db" ["public"] = .ok [tableGood] := by
  have hf : migScenarioConn.tables_rows.filter (tableLoadFilter "db" "public") =
      [tableGood] := by decide
  simp only [loadTablesAll, List.foldlM_cons, List.foldlM_nil, tablesFoldStep,
    Table.load_all, load_all_tables, migScenarioConn, baseConn] at hf ⊢
  rw [hf]
  simp [except_bind_ok, except_pure]

theorem migScenario_build :
    tryFrom migScenarioBuilder = some (.ok migScenarioDB) := by
  have h1 : loadFunctions migScenarioConn (GenericDBBuilder.new "db") =
      .ok (GenericDBBuilder.new "db") := by
    simp [loadFunctions, PgProc.load_all, migScenarioConn, baseConn,
      except_bind_ok, except_pure]
  have h4 : processTables migScenarioConn [] (GenericDBBuilder.new "db") [tableGood] =
      some (.ok { GenericDBBuilder.new "db" with
        tables := [(tableGood, emptyTableMetadata)] }) := by
    simp [processTables, processTable, migScenarioConn, baseConn,
      processColumns, processCheckConstraints, processForeignKeys,
      processUniqueIndexes, processTriggers, processPolicies,
      GenericDBBuilder.add_table, emptyTableMetadata, GenericDBBuilder.new,
      except_bind_ok, except_pure]
  have h2 : PgRole.load_all migScenarioConn = .ok [] := rfl
  have hpre : tryFromPrefix migScenarioBuilder =
      some (.ok (migScenarioConn, [], { GenericDBBuilder.new "db" with
        tables := [(tableGood, emptyTableMetadata)] })) := by
    simp only [GenericDBBuilder.new] at h1 h4
    simp [tryFromPrefix, migScenarioBuilder, h1, h2, migScenario_load, h4,
      GenericDBBuilder.new]
  rw [tryFrom, hpre]
  simp [collectRoleData, collectRoleDataAux, finalizeRoles, finalizeRolesAux,
    GenericDBBuilder.toDatabase, migScenarioDB, GenericDBBuilder.new]

/-- Closed witness for the migrations-filter theorem at an explicit catalog
state containing a `__diesel_schema_migrations` row. -/
theorem no_diesel_schema_migrations_table_witness :
    (∀ t ∈ ([tableGood] : List Table), t.table_name ≠ "__diesel_schema_migrations")
    ∧ (∀ p ∈ migScenarioDB.graph.tables,
        p.1.table_name ≠ "__diesel_schema_migrations") :=
  no_diesel_schema_migrations_table migScenarioBuilder migScenarioConn "db"
    ["public"] [tableGood] migScenarioDB migScenario_load migScenario_build

/-- C4: policy USING and WITH CHECK clause texts are parsed independently
(each is `clause.bind parse`); an absent or unparseable clause yields an
absent expression for that clause only, and as long as the roles query
succeeds every policy is added with its owning table and mapped role list —
the policy loop's outcome does not depend on the parse results, so a parse
failure never fails the build. -/
theorem policy_parse_failures_nonfatal (conn : Conn) (table : Table)
    (gb : GenericDBBuilder) (policies : List PgPolicyTable)
    (R : PgPolicyTable → List PgAuthid)
    (hR : ∀ p ∈ policies, conn.policy_roles p = .ok (R p)) :
    processPolicies conn table gb policies =
      .ok { gb with policies := gb.policies ++
        policies.map (fun p => (p, policyMetadataOf conn table p (R p))) }
    ∧ (∀ p : PgPolicyTable,
        (policyMetadataOf conn table p (R p)).using_expression =
          p.polqual.bind conn.parse_expr
        ∧ (policyMetadataOf conn table p (R p)).check_expression =
          p.polwithcheck.bind conn.parse_expr
        ∧ (policyMetadataOf conn table p (R p)).table = table
        ∧ (policyMetadataOf conn table p (R p)).roles =
          (R p).map (fun r => Owner.Ident ⟨r.rolname⟩))
    ∧ (∀ p : PgPolicyTable,
        (policyMetadataOf conn table p (R p)).using_expression = none ↔
          (p.polqual = none ∨ ∃ s, p.polqual = some s ∧ conn.parse_expr s = none)) := by
  refine ⟨?_, fun p => ⟨rfl, rfl, rfl, rfl⟩, fun p => ?_⟩
  · induction policies generalizing gb with
    | nil =>
      simp only [processPolicies, List.foldlM_nil, List.map_nil, List.append_nil]
      rfl
    | cons p ps ih =>
      have hp := hR p (List.mem_cons_self p ps)
      have hrest : ∀ q ∈ ps, conn.policy_roles q = .ok (R q) :=
        fun q hq => hR q (List.mem_cons_of_mem p hq)
      unfold processPolicies
      simp only [List.foldlM_cons, hp, except_bind_ok]
      have ihr := ih (gb.add_policy p (policyMetadataOf conn table p (R p))) hrest
      unfold processPolicies at ihr
      rw [ihr]
      simp [GenericDBBuilder.add_policy]
  · show (parseExprOpt conn p.polqual = none ↔ _)
    unfold parseExprOpt
    constructor
    · intro hn
      cases hq : p.polqual with
      | none => exact Or.inl rfl
      | some s =>
        rw [hq] at hn
        exact Or.inr ⟨s, rfl, hn⟩
    · rintro (hc | ⟨s2, hs2, hn⟩)
      · rw [hc]
        rfl
      · rw [hs2]
        exact hn

/-- A parser that accepts exactly the string "good". -/
def policyScenarioConn : Conn :=
  { baseConn with
    parse_expr := fun s => if s = "good" then some { raw := "good" } else none
    policy_roles := fun _ => .ok [{ oid := 7, rolname := "admin" }] }

/-- A policy whose USING clause does not parse but whose WITH CHECK clause
does. -/
def policyBadUsing : PgPolicyTable :=
  { polname := "p1", polrelid := 1, polqual := some "bad("
    polwithcheck := some "good", polroles := [7] }

/-- Closed witness for the policy theorem: the policy with the unparseable
USING clause is still added, with an absent USING expression, a present
WITH CHECK expression, and table and roles populated. -/
theorem policy_parse_failures_nonfatal_witness :
    processPolicies policyScenarioConn tableGood (GenericDBBuilder.new "db")
      [policyBadUsing] =
      .ok { GenericDBBuilder.new "db" with policies :=
        [(policyBadUsing, policyMetadataOf policyScenarioConn tableGood policyBadUsing
          [{ oid := 7, rolname := "admin" }])] }
    ∧ (policyMetadataOf policyScenarioConn tableGood policyBadUsing
        [{ oid := 7, rolname := "admin" }]).using_expression = none
    ∧ (policyMetadataOf policyScenarioConn tableGood policyBadUsing
        [{ oid := 7, rolname := "admin" }]).check_expression = some { raw := "good" }
    ∧ (policyMetadataOf policyScenarioConn tableGood policyBadUsing
        [{ oid := 7, rolname := "admin" }]).table = tableGood
    ∧ (policyMetadataOf policyScenarioConn tableGood policyBadUsing
        [{ oid := 7, rolname := "admin" }]).roles = [Owner.Ident { value := "admin" }] := by
  have h := policy_parse_failures_nonfatal policyScenarioConn tableGood
    (GenericDBBuilder.new "db") [policyBadUsing]
    (fun _ => [{ oid := 7, rolname := "admin" }])
    (fun p _ => rfl)
  refine ⟨?_, by decide, by decide, by decide, by decide⟩
  have h1 := h.1
  simpa using h1

/-- C5: under a parseable clause and a successful dependency query,
`CheckConstraint::metadata` succeeds and its function list keeps exactly
the loaded functions matched, by exact name equality, by some function of
the dependency query: every kept function is a loaded function sharing a
dependency's name, every dependency with a loaded name match is
represented, and when no dependency matches the loaded set the list is
empty — still a success, never a failure. -/
theorem check_constraint_function_link (cc : CheckConstraint) (table : Table)
    (tm : TableMetadata) (functions : List PgProc) (conn : Conn)
    (expr : Expr) (deps : List PgProc)
    (hp : conn.parse_expr cc.check_clause = some expr)
    (hd : conn.check_constraint_functions cc = .ok deps) :
    CheckConstraint.metadata cc table tm functions conn =
      some (.ok
        { expression := expr
          table := table
          columns := conn.columns_in_expression expr table.table_name tm.columns
          functions := deps.filterMap (fun func =>
            functions.find? (fun table_func => table_func.name == func.proname)) })
    ∧ (∀ g ∈ deps.filterMap (fun func =>
          functions.find? (fun table_func => table_func.name == func.proname)),
        g ∈ functions ∧ ∃ f ∈ deps, g.proname = f.proname)
    ∧ (∀ f ∈ deps, (∃ g ∈ functions, g.proname = f.proname) →
        ∃ g ∈ deps.filterMap (fun func =>
          functions.find? (fun table_func => table_func.name == func.proname)),
          g.proname = f.proname)
    ∧ ((∀ f ∈ deps, ∀ g ∈ functions, g.proname ≠ f.proname) →
        deps.filterMap (fun func =>
          functions.find? (fun table_func => table_func.name == func.proname)) = []) := by
  refine ⟨?_, ?_, ?_, ?_⟩
  · unfold CheckConstraint.metadata
    rw [hp, hd]
    rfl
  · intro g hg
    rw [List.mem_filterMap] at hg
    obtain ⟨f, hf, hfind⟩ := hg
    refine ⟨List.mem_of_find?_eq_some hfind, f, hf, ?_⟩
    have hbeq := List.find?_some hfind
    unfold PgProc.name at hbeq
    exact eq_of_beq hbeq
  · intro f hf ⟨g, hg, hname⟩
    have hsome : (functions.find? (fun table_func => table_func.name == f.proname)).isSome := by
      rw [List.find?_isSome]
      exact ⟨g, hg, by unfold PgProc.name; exact beq_iff_eq.mpr hname⟩
    obtain ⟨g2, hg2⟩ := Option.isSome_iff_exists.mp hsome
    refine ⟨g2, List.mem_filterMap.mpr ⟨f, hf, hg2⟩, ?_⟩
    have hbeq := List.find?_some hg2
    unfold PgProc.name at hbeq
    exact eq_of_beq hbeq
  · intro hnone
    rw [List.filterMap_eq_nil_iff]
    intro f hf
    rw [List.find?_eq_none]
    intro g hg
    unfold PgProc.name
    intro hbeq
    exact hnone f hf g hg (eq_of_beq hbeq)

/-- A catalog state for the check-constraint witness: the dependency query
reports two functions, only one of which shares its name with a loaded
function. -/
def checkScenarioConn : Conn :=
  { baseConn with
    parse_expr := fun _ => some { raw := "id > 0" }
    check_constraint_functions := fun _ =>
      .ok [sampleProc 21 "st_intersects" "f" false false 16,
           sampleProc 22 "only_in_catalog" "f" false false 16] }

def ccSample : CheckConstraint :=
  { constraint_catalog := "db", constraint_schema := "public"
    constraint_name := "positive_id", check_clause := "id > 0" }

/-- Closed witness for the check-constraint theorem: the matched loaded
function is kept, and with an empty loaded set the function list is empty
while the metadata still succeeds. -/
theorem check_constraint_function_link_witness :
    CheckConstraint.metadata ccSample tableGood emptyTableMetadata
      [sampleProc 31 "st_intersects" "f" true false 16] checkScenarioConn =
      some (.ok
        { expression := { raw := "id > 0" }
          table := tableGood
          columns := []
          functions := [sampleProc 31 "st_intersects" "f" true false 16] })
    ∧ CheckConstraint.metadata ccSample tableGood emptyTableMetadata []
        checkScenarioConn =
      some (.ok
        { expression := { raw := "id > 0" }
          table := tableGood
          columns := []
          functions := [] }) := by
  constructor
  · have h := check_constraint_function_link ccSample tableGood emptyTableMetadata
      [sampleProc 31 "st_intersects" "f" true false 16] checkScenarioConn
      { raw := "id > 0" }
      [sampleProc 21 "st_intersects" "f" false false 16,
       sampleProc 22 "only_in_catalog" "f" false false 16] rfl rfl
    rw [h.1]
    have hfm : ([sampleProc 21 "st_intersects" "f" false false 16,
        sampleProc 22 "only_in_catalog" "f" false false 16] : List PgProc).filterMap
          (fun func => ([sampleProc 31 "st_intersects" "f" true false 16] :
            List PgProc).find? (fun table_func => table_func.name == func.proname)) =
        [sampleProc 31 "st_intersects" "f" true false 16] := by decide
    rw [hfm]
    rfl
  · have h := check_constraint_function_link ccSample tableGood emptyTableMetadata
      [] checkScenarioConn { raw := "id > 0" }
      [sampleProc 21 "st_intersects" "f" false false 16,
       sampleProc 22 "only_in_catalog" "f" false false 16] rfl rfl
    rw [h.1]
    rfl

theorem mem_insertAssoc {α : Type} (m : List (Nat × α)) (k : Nat) (v : α)
    (e : Nat × α) (h : e ∈ insertAssoc m k v) :
    e = (k, v) ∨ (e ∈ m ∧ e.1 ≠ k) := by
  unfold insertAssoc at h
  by_cases hany : m.any (fun p => p.1 == k)
  · rw [if_pos hany] at h
    rw [List.mem_map] at h
    obtain ⟨e0, he0, heq⟩ := h
    by_cases hk : e0.1 == k
    · rw [if_pos hk] at heq
      exact Or.inl heq.symm
    · rw [if_neg hk] at heq
      cases heq
      exact Or.inr ⟨he0, by simpa using hk⟩
  · rw [if_neg hany] at h
    rcases List.mem_append.mp h with h1 | h2
    · refine Or.inr ⟨h1, fun hk => ?_⟩
      exact hany (List.any_eq_true.mpr ⟨e, h1, by simp [hk]⟩)
    · simp only [List.mem_singleton] at h2
      exact Or.inl h2

theorem find?_map_replace_ne {α : Type} (rest : List (Nat × α)) (k : Nat) (v : α)
    (k2 : Nat) (h : k2 ≠ k) :
    (rest.map (fun p => if p.1 == k then (k, v) else p)).find? (fun p => p.1 == k2) =
      rest.find? (fun p => p.1 == k2) := by
  induction rest with
  | nil => rfl
  | cons e tail ih =>
    by_cases hek : e.1 == k
    · rw [List.map_cons, if_pos hek]
      rw [List.find?_cons_of_neg _ (by simpa using fun hkk => h hkk.symm),
        List.find?_cons_of_neg _ (by
          simp only [beq_iff_eq] at hek ⊢
          rw [hek]
          exact fun hkk => h hkk.symm)]
      exact ih
    · rw [List.map_cons, if_neg hek]
      by_cases hek2 : e.1 == k2
      · simp only [List.find?, hek2]
      · rw [List.find?_cons_of_neg _ (by simpa using hek2),
          List.find?_cons_of_neg _ (by simpa using hek2)]
        exact ih

theorem lookupAssoc_insertAssoc_self {α : Type} (m : List (Nat × α)) (k : Nat) (v : α) :
    lookupAssoc (insertAssoc m k v) k = some v := by
  induction m with
  | nil =>
    simp [insertAssoc, lookupAssoc]
  | cons e rest ih =>
    by_cases hk : e.1 == k
    · have hins : insertAssoc (e :: rest) k v =
          (k, v) :: rest.map (fun p => if p.1 == k then (k, v) else p) := by
        unfold insertAssoc
        rw [if_pos (by simp [List.any_cons, hk])]
        rw [List.map_cons, if_pos hk]
      rw [hins]
      unfold lookupAssoc
      rw [List.find?_cons_of_pos _ (by simp)]
      rfl
    · by_cases hrest : rest.any (fun p => p.1 == k)
      · have hins : insertAssoc (e :: rest) k v = e :: insertAssoc rest k v := by
          unfold insertAssoc
          rw [if_pos (by simp [List.any_cons, hrest]), if_pos hrest]
          rw [List.map_cons, if_neg hk]
        rw [hins]
        unfold lookupAssoc at ih ⊢
        rw [List.find?_cons_of_neg _ (by simpa using hk)]
        exact ih
      · have hins : insertAssoc (e :: rest) k v = e :: insertAssoc rest k v := by
          unfold insertAssoc
          rw [if_neg (by simp [List.any_cons, hk, hrest]), if_neg hrest]
          rfl
        rw [hins]
        unfold lookupAssoc at ih ⊢
        rw [List.find?_cons_of_neg _ (by simpa using hk)]
        exact ih

theorem lookupAssoc_insertAssoc_ne {α : Type} (m : List (Nat × α)) (k : Nat) (v : α)
    (k2 : Nat) (h : k2 ≠ k) :
    lookupAssoc (insertAssoc m k v) k2 = lookupAssoc m k2 := by
  unfold insertAssoc lookupAssoc
  by_cases hany : m.any (fun p => p.1 == k)
  · rw [if_pos hany, find?_map_replace_ne m k v k2 h]
  · rw [if_neg hany, List.find?_append]
    have h2 : ([(k, v)] : List (Nat × α)).find? (fun p => p.1 == k2) = none := by
      rw [List.find?_cons_of_neg _ (by
        simp only [beq_iff_eq]
        exact fun hkk => h hkk.symm)]
      rfl
    rw [h2]
    cases m.find? (fun p => p.1 == k2) <;> rfl

theorem collectRoleDataAux_inv (conn : Conn) :
    ∀ (roles : List PgRole) (rm : List (Nat × PgRole)) (mm : List (Nat × List Nat)),
      (∀ e ∈ rm, e.2.oid = some e.1) →
      (∀ e ∈ rm, lookupAssoc mm e.1 = some (unwrapOrNil (member_of e.2 conn))) →
      (∀ e ∈ (collectRoleDataAux conn rm mm roles).1, e.2.oid = some e.1)
      ∧ (∀ e ∈ (collectRoleDataAux conn rm mm roles).1,
          lookupAssoc (collectRoleDataAux conn rm mm roles).2 e.1 =
            some (unwrapOrNil (member_of e.2 conn))) := by
  intro roles
  induction roles with
  | nil =>
    intro rm mm h1 h2
    exact ⟨h1, h2⟩
  | cons role rest ih =>
    intro rm mm h1 h2
    unfold collectRoleDataAux
    cases ho : role.oid with
    | none => exact ih rm mm h1 h2
    | some ro =>
      refine ih (insertAssoc rm ro role)
        (insertAssoc mm ro (unwrapOrNil (member_of role conn))) ?_ ?_
      · intro e he
        rcases mem_insertAssoc rm ro role e he with heq | ⟨hmem, _⟩
        · rw [heq]
          exact ho
        · exact h1 e hmem
      · intro e he
        rcases mem_insertAssoc rm ro role e he with heq | ⟨hmem, hne⟩
        · rw [heq]
          exact lookupAssoc_insertAssoc_self mm ro _
        · rw [lookupAssoc_insertAssoc_ne mm ro _ e.1 hne]
          exact h2 e hmem

theorem collectRoleData_inv (conn : Conn) (roles : List PgRole) :
    (∀ e ∈ (collectRoleData conn roles).1, e.2.oid = some e.1)
    ∧ (∀ e ∈ (collectRoleData conn roles).1,
        lookupAssoc (collectRoleData conn roles).2 e.1 =
          some (unwrapOrNil (member_of e.2 conn))) :=
  collectRoleDataAux_inv conn roles [] []
    (fun e he => absurd he (List.not_mem_nil e))
    (fun e he => absurd he (List.not_mem_nil e))

theorem finalizeRolesAux_roles (rm : List (Nat × PgRole))
    (mm : List (Nat × List Nat)) (memOf : Nat × PgRole → List Nat) :
    ∀ (l : List (Nat × PgRole)) (gb : GenericDBBuilder),
      (∀ e ∈ l, lookupAssoc mm e.1 = some (memOf e)) →
      (finalizeRolesAux rm mm gb l).roles =
        gb.roles ++ l.map (fun e => (e.2, RoleMetadata.new
          ((memOf e).filterMap (fun oid => lookupAssoc rm oid)) [])) := by
  intro l
  induction l with
  | nil =>
    intro gb _
    simp [finalizeRolesAux]
  | cons e rest ih =>
    intro gb hl
    unfold finalizeRolesAux
    rw [hl e (List.mem_cons_self e rest)]
    rw [ih _ (fun q hq => hl q (List.mem_cons_of_mem e hq))]
    simp [GenericDBBuilder.add_role]

def roleA : PgRole := sampleRole (some "A") (some 1)

def roleB : PgRole := sampleRole (some "B") (some 2)

def roleC : PgRole := sampleRole (some "C") (some 3)

/-- A catalog state with the membership chain A granted B, B granted C. -/
def chainConn : Conn :=
  { baseConn with
    pg_roles_rows := [roleA, roleB, roleC]
    auth_members_query := fun o =>
      if o = 1 then .ok [2] else if o = 2 then .ok [3] else .ok [] }

/-- C3: role membership is resolved in two direct-only passes — pass 1
registers every role with a present OID under that OID and records its raw
granted-OID list (`roles_map` entries carry exactly their key's role);
pass 2 adds, for each registered role, a metadata entry whose `member_of`
resolves the recorded OIDs against the registered map, skipping unmatched
OIDs, so the list contains exactly the registered roles whose OIDs appear
in that role's own granted list; on the concrete chain A granted B, B
granted C, A's `member_of` is `[B]`, not `[B, C]`. -/
theorem role_membership_two_pass_direct (conn : Conn) (roles : List PgRole)
    (gb : GenericDBBuilder) :
    (∀ e ∈ (collectRoleData conn roles).1, e.2.oid = some e.1)
    ∧ ((finalizeRoles (collectRoleData conn roles).1
        (collectRoleData conn roles).2 gb).roles =
      gb.roles ++ (collectRoleData conn roles).1.map (fun e =>
        (e.2, RoleMetadata.new ((unwrapOrNil (member_of e.2 conn)).filterMap
          (fun oid => lookupAssoc (collectRoleData conn roles).1 oid)) [])))
    ∧ (∀ e ∈ (collectRoleData conn roles).1, ∀ x : PgRole,
        x ∈ (unwrapOrNil (member_of e.2 conn)).filterMap
          (fun oid => lookupAssoc (collectRoleData conn roles).1 oid) ↔
        ∃ oid ∈ unwrapOrNil (member_of e.2 conn),
          lookupAssoc (collectRoleData conn roles).1 oid = some x)
    ∧ (finalizeRoles (collectRoleData chainConn [roleA, roleB, roleC]).1
        (collectRoleData chainConn [roleA, roleB, roleC]).2
        (GenericDBBuilder.new "db")).roles =
      [(roleA, RoleMetadata.new [roleB] []),
       (roleB, RoleMetadata.new [roleC] []),
       (roleC, RoleMetadata.new [] [])] := by
  obtain ⟨h1, h2⟩ := collectRoleData_inv conn roles
  refine ⟨h1, ?_, ?_, by decide⟩
  · exact finalizeRolesAux_roles (collectRoleData conn roles).1
      (collectRoleData conn roles).2
      (fun e => unwrapOrNil (member_of e.2 conn))
      (collectRoleData conn roles).1 gb h2
  · intro e _ x
    exact List.mem_filterMap

/-- Closed witness for the role-membership theorem on the concrete chain
A granted B, B granted C. -/
theorem role_membership_two_pass_direct_witness :
    ((1, roleA) : Nat × PgRole).2.oid = some 1
    ∧ (roleB ∈ (unwrapOrNil (member_of roleA chainConn)).filterMap
        (fun oid => lookupAssoc (collectRoleData chainConn [roleA, roleB, roleC]).1 oid) ↔
      ∃ oid ∈ unwrapOrNil (member_of roleA chainConn),
        lookupAssoc (collectRoleData chainConn [roleA, roleB, roleC]).1 oid =
          some roleB) := by
  have h := role_membership_two_pass_direct chainConn [roleA, roleB, roleC]
    (GenericDBBuilder.new "db")
  exact ⟨h.1 (1, roleA) (by decide), h.2.2.1 (1, roleA) (by decide) roleB⟩

/-- C10: every role row whose OID is absent is silently omitted — every
registered `roles_map` entry carries a role with a present OID, an OID-less
role is never registered, and the roles added to the graph by finalization
are exactly the registered ones (finalization itself is total: it reports
no error). -/
theorem oidless_roles_omitted (conn : Conn) (roles : List PgRole)
    (gb : GenericDBBuilder) :
    (∀ e ∈ (collectRoleData conn roles).1, e.2.oid.isSome = true)
    ∧ (∀ r ∈ roles, r.oid = none → ∀ e ∈ (collectRoleData conn roles).1, e.2 ≠ r)
    ∧ ((finalizeRoles (collectRoleData conn roles).1
        (collectRoleData conn roles).2 gb).roles.map Prod.fst =
      gb.roles.map Prod.fst ++ (collectRoleData conn roles).1.map (fun e => e.2)) := by
  obtain ⟨h1, h2⟩ := collectRoleData_inv conn roles
  refine ⟨?_, ?_, ?_⟩
  · intro e he
    rw [h1 e he]
    rfl
  · intro r _ hro e he heq
    have hoid := h1 e he
    rw [heq, hro] at hoid
    cases hoid
  · have h3 := finalizeRolesAux_roles (collectRoleData conn roles).1
      (collectRoleData conn roles).2
      (fun e => unwrapOrNil (member_of e.2 conn))
      (collectRoleData conn roles).1 gb h2
    unfold finalizeRoles
    rw [h3, List.map_append, List.map_map]
    rfl

def roleNoOid : PgRole := sampleRole (some "ghost") none

/-- A catalog state with one OID-less role next to an ordinary one. -/
def noOidConn : Conn :=
  { baseConn with
    pg_roles_rows := [roleNoOid, roleA]
    auth_members_query := fun _ => .ok [] }

/-- Closed witness for the OID-less-role theorem: the OID-less role is
registered under no entry while the ordinary role is the only graph
role. -/
theorem oidless_roles_omitted_witness :
    ((1, roleA) : Nat × PgRole).2 ≠ roleNoOid
    ∧ (finalizeRoles (collectRoleData noOidConn [roleNoOid, roleA]).1
        (collectRoleData noOidConn [roleNoOid, roleA]).2
        (GenericDBBuilder.new "db")).roles.map Prod.fst = [roleA] := by
  have h := oidless_roles_omitted noOidConn [roleNoOid, roleA]
    (GenericDBBuilder.new "db")
  exact ⟨h.2.1 roleNoOid (by decide) rfl (1, roleA) (by decide), by decide⟩

/-- C1 (amended): every catalog query issued during the build aborts it
with its error wrapped in `PgDatabaseBuildError::Diesel` and no graph —
shown for the function-loading stage (both the `pg_proc` load itself and a
per-function metadata/type-resolution query), the role load, the table
load, and each per-table query (table metadata, column metadata,
check-constraint dependency functions, foreign-key metadata, unique-index
metadata, policy roles), each propagated through the per-table loop into
the build result — with one exception: the role-membership (`member_of`)
query; role finalization is total, so once the build prefix has succeeded
the build returns a graph whatever the `member_of` query returns (its
error is swallowed by `unwrap_or_default()`). -/
theorem catalog_query_errors_propagate_except_member_of
    (value : PgDieselDatabaseBuilder) (conn : Conn) (cat : String) (e : DieselError)
    (hconn : value.connection = some conn) (hcat : value.catalog = some cat)
    (hschemas : value.schemas ≠ []) :
    (loadFunctions conn (GenericDBBuilder.new cat) = .error e →
      tryFrom value = some (.error (PgDatabaseBuildError.Diesel e)))
    ∧ (conn.pg_proc_load_err = some e →
        loadFunctions conn (GenericDBBuilder.new cat) = .error e)
    ∧ (∀ f fs, PgProc.load_all conn = .ok (f :: fs) →
        conn.pg_proc_metadata f = .error e →
        loadFunctions conn (GenericDBBuilder.new cat) = .error e)
    ∧ (∀ gb1, loadFunctions conn (GenericDBBuilder.new cat) = .ok gb1 →
        conn.pg_roles_load_err = some e →
        tryFrom value = some (.error (PgDatabaseBuildError.Diesel e)))
    ∧ (∀ gb1 roles, loadFunctions conn (GenericDBBuilder.new cat) = .ok gb1 →
        PgRole.load_all conn = .ok roles →
        conn.tables_load_err = some e →
        tryFrom value = some (.error (PgDatabaseBuildError.Diesel e)))
    ∧ (∀ gb1 roles ts err, loadFunctions conn (GenericDBBuilder.new cat) = .ok gb1 →
        PgRole.load_all conn = .ok roles →
        loadTablesAll conn cat value.schemas = .ok ts →
        processTables conn value.denylist_types gb1 ts = some (.error err) →
        tryFrom value = some (.error err))
    ∧ (∀ gb t rest err, processTable conn value.denylist_types gb t = some (.error err) →
        processTables conn value.denylist_types gb (t :: rest) = some (.error err))
    ∧ (∀ gb t, conn.table_metadata t value.denylist_types = .error e →
        processTable conn value.denylist_types gb t =
          some (.error (PgDatabaseBuildError.Diesel e)))
    ∧ (∀ gb t tm column cols, conn.table_metadata t value.denylist_types = .ok tm →
        tm.columns = column :: cols →
        conn.column_metadata column t = .error e →
        processTable conn value.denylist_types gb t =
          some (.error (PgDatabaseBuildError.Diesel e)))
    ∧ (∀ gb t tm gbA cc ccs expr, conn.table_metadata t value.denylist_types = .ok tm →
        processColumns conn t gb tm.columns = .ok gbA →
        tm.check_constraints = cc :: ccs →
        conn.parse_expr cc.check_clause = some expr →
        conn.check_constraint_functions cc = .error e →
        processTable conn value.denylist_types gb t =
          some (.error (PgDatabaseBuildError.Diesel e)))
    ∧ (∀ gb t tm gbA gbB fk fks, conn.table_metadata t value.denylist_types = .ok tm →
        processColumns conn t gb tm.columns = .ok gbA →
        processCheckConstraints conn t tm (gbA.functions.map Prod.fst) gbA
          tm.check_constraints = some (.ok gbB) →
        tm.foreign_keys = fk :: fks →
        conn.fk_metadata fk t = .error e →
        processTable conn value.denylist_types gb t =
          some (.error (PgDatabaseBuildError.Diesel e)))
    ∧ (∀ gb t tm gbA gbB gbC idx idxs, conn.table_metadata t value.denylist_types = .ok tm →
        processColumns conn t gb tm.columns = .ok gbA →
        processCheckConstraints conn t tm (gbA.functions.map Prod.fst) gbA
          tm.check_constraints = some (.ok gbB) →
        processForeignKeys conn t gbB tm.foreign_keys = .ok gbC →
        tm.unique_indexes = idx :: idxs →
        conn.index_metadata idx t = .error e →
        processTable conn value.denylist_types gb t =
          some (.error (PgDatabaseBuildError.Diesel e)))
    ∧ (∀ gb t tm gbA gbB gbC gbD p ps, conn.table_metadata t value.denylist_types = .ok tm →
        processColumns conn t gb tm.columns = .ok gbA →
        processCheckConstraints conn t tm (gbA.functions.map Prod.fst) gbA
          tm.check_constraints = some (.ok gbB) →
        processForeignKeys conn t gbB tm.foreign_keys = .ok gbC →
        processUniqueIndexes conn t gbC tm.unique_indexes = .ok gbD →
        tm.policies = p :: ps →
        conn.policy_roles p = .error e →
        processTable conn value.denylist_types gb t =
          some (.error (PgDatabaseBuildError.Diesel e)))
    ∧ (∀ (connB : Conn) (roles : List PgRole) (gb : GenericDBBuilder),
        tryFromPrefix value = some (.ok (connB, roles, gb)) →
        tryFrom value = some (.ok ((finalizeRoles (collectRoleData connB roles).1
          (collectRoleData connB roles).2 gb).toDatabase))) := by
  have hif : ¬(value.schemas.isEmpty = true) := by
    intro h
    exact hschemas (List.isEmpty_iff.mp h)
  refine ⟨fun hlf => ?_, fun hperr => ?_, fun f fs hload hmeta => ?_,
    fun gb1 hfun hrerr => ?_, fun gb1 roles hfun hroles hterr => ?_,
    fun gb1 roles ts err hfun hroles htabs hproc => ?_,
    fun gb t rest err hfail => ?_, fun gb t htm => ?_,
    fun gb t tm column cols htm hcols hcm => ?_,
    fun gb t tm gbA cc ccs expr htm hpcols hccs hparse hdeps => ?_,
    fun gb t tm gbA gbB fk fks htm hpcols hpcc hfks hfkm => ?_,
    fun gb t tm gbA gbB gbC idx idxs htm hpcols hpcc hpfk hidxs hidxm => ?_,
    fun gb t tm gbA gbB gbC gbD p ps htm hpcols hpcc hpfk hpidx hpols hpr => ?_,
    fun connB roles gb hpre => ?_⟩
  · have hpre : tryFromPrefix value = some (.error (PgDatabaseBuildError.Diesel e)) := by
      simp only [tryFromPrefix, hconn, hcat]
      rw [if_neg hif, hlf]
    unfold tryFrom
    rw [hpre]
  · unfold loadFunctions PgProc.load_all
    rw [hperr]
    rfl
  · unfold loadFunctions
    rw [hload]
    simp only [except_bind_ok, List.foldlM_cons, hmeta, except_bind_err]
  · have hrl : PgRole.load_all conn = .error e := by
      unfold PgRole.load_all
      rw [hrerr]
    have hpre : tryFromPrefix value = some (.error (PgDatabaseBuildError.Diesel e)) := by
      simp only [tryFromPrefix, hconn, hcat]
      rw [if_neg hif, hfun, hrl]
    unfold tryFrom
    rw [hpre]
  · have hlt : loadTablesAll conn cat value.schemas = .error e := by
      cases hs : value.schemas with
      | nil => exact absurd hs hschemas
      | cons s rest =>
        unfold loadTablesAll
        simp only [List.foldlM_cons, tablesFoldStep, Table.load_all, load_all_tables,
          hterr, except_bind_err]
    have hpre : tryFromPrefix value = some (.error (PgDatabaseBuildError.Diesel e)) := by
      simp only [tryFromPrefix, hconn, hcat]
      rw [if_neg hif, hfun, hroles, hlt]
    unfold tryFrom
    rw [hpre]
  · have hpre : tryFromPrefix value = some (.error err) := by
      simp only [tryFromPrefix, hconn, hcat]
      rw [if_neg hif]
      simp only [hfun, hroles, htabs]
      rw [hproc]
    unfold tryFrom
    rw [hpre]
  · unfold processTables
    rw [hfail]
  · simp only [processTable, htm]
  · have hpc : processColumns conn t gb tm.columns = .error e := by
      rw [hcols]
      unfold processColumns
      simp only [List.foldlM_cons, hcm, except_bind_err]
    simp only [processTable, htm, hpc]
  · have hmeta : CheckConstraint.metadata cc t tm (gbA.functions.map Prod.fst) conn =
        some (.error e) := by
      unfold CheckConstraint.metadata
      rw [hparse]
      simp only [hdeps, except_bind_err]
    have hpcc : processCheckConstraints conn t tm (gbA.functions.map Prod.fst) gbA
        tm.check_constraints = some (.error (PgDatabaseBuildError.Diesel e)) := by
      rw [hccs]
      unfold processCheckConstraints
      rw [hmeta]
    simp only [processTable, htm, hpcols, hpcc]
  · have hpfk : processForeignKeys conn t gbB tm.foreign_keys = .error e := by
      rw [hfks]
      unfold processForeignKeys
      simp only [List.foldlM_cons, hfkm, except_bind_err]
    simp only [processTable, htm, hpcols, hpcc, hpfk]
  · have hpidx : processUniqueIndexes conn t gbC tm.unique_indexes = .error e := by
      rw [hidxs]
      unfold processUniqueIndexes
      simp only [List.foldlM_cons, hidxm, except_bind_err]
    simp only [processTable, htm, hpcols, hpcc, hpfk, hpidx]
  · have hpp : processPolicies conn t (processTriggers t gbD tm.triggers) tm.policies =
        .error e := by
      rw [hpols]
      unfold processPolicies
      simp only [List.foldlM_cons, hpr, except_bind_err]
    simp only [processTable, htm, hpcols, hpcc, hpfk, hpidx, hpp]
  · unfold tryFrom
    rw [hpre]

/-- A catalog state with one role whose `pg_auth_members` query fails. -/
def memberFailConn : Conn :=
  { baseConn with
    pg_roles_rows := [roleA]
    auth_members_query := fun _ =>
      .error (DieselError.DatabaseError "member_of failed") }

def memberFailBuilder : PgDieselDatabaseBuilder :=
  { connection := some memberFailConn
    catalog := some "db"
    schemas := ["public"]
    denylist_types := [] }

def memberFailDB : PgDieselDatabase :=
  { graph := { catalog := "db", roles := [(roleA, RoleMetadata.new [] [])] } }

theorem memberFail_stage_result :
    tryFromPrefix memberFailBuilder =
      some (.ok (memberFailConn, [roleA], GenericDBBuilder.new "db")) := by
  have h1 : loadFunctions memberFailConn (GenericDBBuilder.new "db") =
      .ok (GenericDBBuilder.new "db") := by
    simp [loadFunctions, PgProc.load_all, memberFailConn, baseConn,
      except_bind_ok, except_pure]
  have h3 : loadTablesAll memberFailConn "db" ["public"] = .ok [] := by
    simp [loadTablesAll, tablesFoldStep, Table.load_all, load_all_tables,
      memberFailConn, baseConn, except_bind_ok, except_pure]
  have h2 : PgRole.load_all memberFailConn = .ok [roleA] := rfl
  simp only [GenericDBBuilder.new] at h1 ⊢
  simp [tryFromPrefix, memberFailBuilder, h1, h2, h3, processTables,
    GenericDBBuilder.new]

/-- C1 counterexample: the claim fails at this catalog state — the
`member_of` query for the only role returns an error, yet the build does
not return that error wrapped in `Diesel`: it returns a completed graph in
which the role's membership list is empty. -/
theorem member_of_error_swallowed :
    member_of roleA memberFailConn =
      .error (DieselError.DatabaseError "member_of failed")
    ∧ tryFrom memberFailBuilder = some (.ok memberFailDB) := by
  constructor
  · rfl
  · unfold tryFrom
    rw [memberFail_stage_result]
    decide

def colSample : Column :=
  { table_catalog := "db", table_schema := "public", table_name := "users"
    column_name := "id", ordinal_position := 1 }

def fkSample : KeyColumnUsage :=
  { constraint_catalog := "db", constraint_schema := "public"
    constraint_name := "users_fk" }

def idxSample : PgIndex :=
  { indexrelid := 100, indrelid := 200, indisunique := true }

def tmCol : TableMetadata :=
  { emptyTableMetadata with columns := [colSample] }

def tmCheck : TableMetadata :=
  { emptyTableMetadata with check_constraints := [ccSample] }

def tmFk : TableMetadata :=
  { emptyTableMetadata with foreign_keys := [fkSample] }

def tmIdx : TableMetadata :=
  { emptyTableMetadata with unique_indexes := [idxSample] }

def tmPol : TableMetadata :=
  { emptyTableMetadata with policies := [policyBadUsing] }

/-- A catalog state whose table-metadata query reports the given per-table
sub-entities: every other per-table query of `baseConn` fails with
`NotFound`. -/
def tmConn (tm : TableMetadata) : Conn :=
  { baseConn with
    tables_rows := [tableGood]
    table_metadata := fun _ _ => .ok tm
    parse_expr := fun _ => some { raw := "parsed" } }

/-- The builder wired to the given connection. -/
def errBldr (c : Conn) : PgDieselDatabaseBuilder :=
  { connection := some c, catalog := some "db"
    schemas := ["public"], denylist_types := [] }

/-- Closed witness for the amended error-propagation theorem: the three
loading-stage queries, a per-function metadata query, and each per-table
query (column metadata, check-constraint dependencies, foreign-key
metadata, index metadata, policy roles) abort the build — the column case
end-to-end through the per-table loop — while the member-of-failure
scenario still builds a graph. -/
theorem catalog_query_errors_propagate_witness :
    tryFrom { connection := some { baseConn with pg_proc_load_err := some DieselError.NotFound }
              catalog := some "db", schemas := ["public"], denylist_types := [] } =
      some (.error (PgDatabaseBuildError.Diesel DieselError.NotFound))
    ∧ tryFrom (errBldr procScenarioConn) =
      some (.error (PgDatabaseBuildError.Diesel DieselError.NotFound))
    ∧ tryFrom { connection := some { baseConn with pg_roles_load_err := some DieselError.NotFound }
                catalog := some "db", schemas := ["public"], denylist_types := [] } =
      some (.error (PgDatabaseBuildError.Diesel DieselError.NotFound))
    ∧ tryFrom { connection := some { baseConn with tables_load_err := some DieselError.NotFound }
                catalog := some "db", schemas := ["public"], denylist_types := [] } =
      some (.error (PgDatabaseBuildError.Diesel DieselError.NotFound))
    ∧ processTable (tmConn tmCol) [] (GenericDBBuilder.new "db") tableGood =
      some (.error (PgDatabaseBuildError.Diesel DieselError.NotFound))
    ∧ processTable (tmConn tmCheck) [] (GenericDBBuilder.new "db") tableGood =
      some (.error (PgDatabaseBuildError.Diesel DieselError.NotFound))
    ∧ processTable (tmConn tmFk) [] (GenericDBBuilder.new "db") tableGood =
      some (.error (PgDatabaseBuildError.Diesel DieselError.NotFound))
    ∧ processTable (tmConn tmIdx) [] (GenericDBBuilder.new "db") tableGood =
      some (.error (PgDatabaseBuildError.Diesel DieselError.NotFound))
    ∧ processTable (tmConn tmPol) [] (GenericDBBuilder.new "db") tableGood =
      some (.error (PgDatabaseBuildError.Diesel DieselError.NotFound))
    ∧ processTables (tmConn tmCol) [] (GenericDBBuilder.new "db") [tableGood] =
      some (.error (PgDatabaseBuildError.Diesel DieselError.NotFound))
    ∧ tryFrom (errBldr (tmConn tmCol)) =
      some (.error (PgDatabaseBuildError.Diesel DieselError.NotFound))
    ∧ tryFrom memberFailBuilder =
      some (.ok ((finalizeRoles (collectRoleData memberFailConn [roleA]).1
        (collectRoleData memberFailConn [roleA]).2
        (GenericDBBuilder.new "db")).toDatabase)) := by
  have hfun1 : loadFunctions { baseConn with pg_roles_load_err := some DieselError.NotFound }
      (GenericDBBuilder.new "db") = .ok (GenericDBBuilder.new "db") := by
    simp [loadFunctions, PgProc.load_all, baseConn, except_bind_ok, except_pure]
  have hfun2 : loadFunctions { baseConn with tables_load_err := some DieselError.NotFound }
      (GenericDBBuilder.new "db") = .ok (GenericDBBuilder.new "db") := by
    simp [loadFunctions, PgProc.load_all, baseConn, except_bind_ok, except_pure]
  have hfun3 : loadFunctions (tmConn tmCol) (GenericDBBuilder.new "db") =
      .ok (GenericDBBuilder.new "db") := by
    simp [loadFunctions, PgProc.load_all, tmConn, baseConn, except_bind_ok, except_pure]
  have hloadP : PgProc.load_all procScenarioConn =
      .ok [sampleProc 12 "keepme" "f" true false 23] := by
    have hf : procScenarioConn.pg_proc_rows.filter pgProcLoadFilter =
        [sampleProc 12 "keepme" "f" true false 23] := by decide
    simp [PgProc.load_all, procScenarioConn, baseConn] at hf ⊢
    rw [hf]
    simp
  have htabsC : loadTablesAll (tmConn tmCol) "db" ["public"] = .ok [tableGood] := by
    have hf : (tmConn tmCol).tables_rows.filter (tableLoadFilter "db" "public") =
        [tableGood] := by decide
    simp only [loadTablesAll, List.foldlM_cons, List.foldlM_nil, tablesFoldStep,
      Table.load_all, load_all_tables, tmConn, baseConn] at hf ⊢
    rw [hf]
    simp [except_bind_ok, except_pure]
  obtain ⟨pm1, pm2, pm3, pm4, pm5, pm6, pm7, pm8, pm9, pm10, pm11, pm12, pm13, pm14⟩ :=
    catalog_query_errors_propagate_except_member_of (errBldr procScenarioConn)
      procScenarioConn "db" DieselError.NotFound rfl rfl (by simp [errBldr])
  obtain ⟨c1, c2, c3, c4, c5, c6, c7, c8, c9, c10, c11, c12, c13, c14⟩ :=
    catalog_query_errors_propagate_except_member_of (errBldr (tmConn tmCol))
      (tmConn tmCol) "db" DieselError.NotFound rfl rfl (by simp [errBldr])
  obtain ⟨k1, k2, k3, k4, k5, k6, k7, k8, k9, k10, k11, k12, k13, k14⟩ :=
    catalog_query_errors_propagate_except_member_of (errBldr (tmConn tmCheck))
      (tmConn tmCheck) "db" DieselError.NotFound rfl rfl (by simp [errBldr])
  obtain ⟨f1, f2, f3, f4, f5, f6, f7, f8, f9, f10, f11, f12, f13, f14⟩ :=
    catalog_query_errors_propagate_except_member_of (errBldr (tmConn tmFk))
      (tmConn tmFk) "db" DieselError.NotFound rfl rfl (by simp [errBldr])
  obtain ⟨i1, i2, i3, i4, i5, i6, i7, i8, i9, i10, i11, i12, i13, i14⟩ :=
    catalog_query_errors_propagate_except_member_of (errBldr (tmConn tmIdx))
      (tmConn tmIdx) "db" DieselError.NotFound rfl rfl (by simp [errBldr])
  obtain ⟨p1, p2, p3, p4, p5, p6, p7, p8, p9, p10, p11, p12, p13, p14⟩ :=
    catalog_query_errors_propagate_except_member_of (errBldr (tmConn tmPol))
      (tmConn tmPol) "db" DieselError.NotFound rfl rfl (by simp [errBldr])
  have wcol : processTable (tmConn tmCol) [] (GenericDBBuilder.new "db") tableGood =
      some (.error (PgDatabaseBuildError.Diesel DieselError.NotFound)) :=
    c9 (GenericDBBuilder.new "db") tableGood tmCol colSample [] rfl rfl rfl
  have wtabs : processTables (tmConn tmCol) [] (GenericDBBuilder.new "db") [tableGood] =
      some (.error (PgDatabaseBuildError.Diesel DieselError.NotFound)) :=
    c7 (GenericDBBuilder.new "db") tableGood [] _ wcol
  refine ⟨?_, ?_, ?_, ?_, wcol, ?_, ?_, ?_, ?_, wtabs, ?_, ?_⟩
  · have hb := catalog_query_errors_propagate_except_member_of
      { connection := some { baseConn with pg_proc_load_err := some DieselError.NotFound }
        catalog := some "db", schemas := ["public"], denylist_types := [] }
      { baseConn with pg_proc_load_err := some DieselError.NotFound } "db"
      DieselError.NotFound rfl rfl (by simp)
    exact hb.1 (hb.2.1 rfl)
  · exact pm1 (pm3 (sampleProc 12 "keepme" "f" true false 23) [] hloadP rfl)
  · exact (catalog_query_errors_propagate_except_member_of _
      { baseConn with pg_roles_load_err := some DieselError.NotFound } "db"
      DieselError.NotFound rfl rfl (by simp)).2.2.2.1
      (GenericDBBuilder.new "db") hfun1 rfl
  · exact (catalog_query_errors_propagate_except_member_of _
      { baseConn with tables_load_err := some DieselError.NotFound } "db"
      DieselError.NotFound rfl rfl (by simp)).2.2.2.2.1
      (GenericDBBuilder.new "db") [] hfun2 rfl rfl
  · exact k10 (GenericDBBuilder.new "db") tableGood tmCheck (GenericDBBuilder.new "db")
      ccSample [] { raw := "parsed" } rfl rfl rfl rfl rfl
  · exact f11 (GenericDBBuilder.new "db") tableGood tmFk (GenericDBBuilder.new "db")
      (GenericDBBuilder.new "db") fkSample [] rfl rfl rfl rfl rfl
  · exact i12 (GenericDBBuilder.new "db") tableGood tmIdx (GenericDBBuilder.new "db")
      (GenericDBBuilder.new "db") (GenericDBBuilder.new "db") idxSample [] rfl rfl
      rfl rfl rfl rfl
  · exact p13 (GenericDBBuilder.new "db") tableGood tmPol (GenericDBBuilder.new "db")
      (GenericDBBuilder.new "db") (GenericDBBuilder.new "db") (GenericDBBuilder.new "db")
      policyBadUsing [] rfl rfl rfl rfl rfl rfl rfl
  · exact c6 (GenericDBBuilder.new "db") [] [tableGood]
      (PgDatabaseBuildError.Diesel DieselError.NotFound) hfun3 rfl htabsC wtabs
  · exact (catalog_query_errors_propagate_except_member_of memberFailBuilder
      memberFailConn "db" DieselError.NotFound rfl rfl
      (by simp [memberFailBuilder])).2.2.2.2.2.2.2.2.2.2.2.2.2
      memberFailConn [roleA] (GenericDBBuilder.new "db") memberFail_stage_result

/-- Closed witness for the referential-constraint theorem at an explicit
constraint. -/
theorem referential_constraint_rule_mapping_witness :
    ((sampleRC "SIMPLE" "CASCADE").on_delete_cascade = true ↔
      upperBytes (sampleRC "SIMPLE" "CASCADE").delete_rule = strBytes "CASCADE")
    ∧ (sampleRC "SIMPLE" "cAsCaDe").on_delete_cascade = true
    ∧ (sampleRC "INVALID" "NO ACTION").match_kind = none :=
  ⟨(referential_constraint_rule_mapping (sampleRC "SIMPLE" "CASCADE")).1,
   (referential_constraint_rule_mapping (sampleRC "SIMPLE" "CASCADE")).2.2.2.2.2.1,
   (referential_constraint_rule_mapping
     (sampleRC "SIMPLE" "CASCADE")).2.2.2.2.2.2.2.2.2⟩

/-- Closed witness for the schema-registration theorem at its two concrete
scenarios. -/
theorem schema_registration_asymmetry_witness :
    ((PgDieselDatabaseBuilder.mkDefault.schema "public").schemasBulk
      ["public", "private"]).schemas = ["public", "private"]
    ∧ ((PgDieselDatabaseBuilder.mkDefault.schema "public").schema "public").schemas =
      ["public", "public"] :=
  ⟨(schema_registration_asymmetry PgDieselDatabaseBuilder.mkDefault).2.2.1,
   (schema_registration_asymmetry PgDieselDatabaseBuilder.mkDefault).2.2.2⟩

end PgDiesel
